import Mathlib

/-!
# bettercap: WiFi access-point registry and deauthentication orchestrator

A shallow embedding of `network/wifi_ap.go` and `modules/wifi/wifi_deauth.go`.

* Go pointers to `Station` are indices into an explicit heap, so that two
  holders of the same pointer observe each other's writes.
* Go maps are association lists; the list order stands for one iteration order.
* The module's collaborators that live outside the two files (parameter store,
  running flag, frame builder, radio handle, `sort.Slice`) are fields of `Env`.
* Logging and sleeping have no effect on the state and are left out.
-/

namespace Bettercap

/-! ## Data model -/

/-- Go `net.HardwareAddr`: a byte slice. -/
abbrev HardwareAddr := List Nat

/-- A Go `*Station`: an index into the heap of stations. -/
abbrev Ptr := Nat

/-- Modelled from the spec: the `Station` record (its declaration is in a file
outside the two embedded ones). The fields are the ones the spec lists
(address, alias, frequency, signal, last seen, WPS mapping, handshake state)
and the ones the embedded code reads (`HW`, `Hostname`, `Channel`,
`Encryption`). -/
structure Station where
  HwAddress : String
  HW : HardwareAddr
  Hostname : String
  Alias : String
  Frequency : Int
  Channel : Int
  RSSI : Int
  LastSeen : Nat
  Encryption : String
  WPS : List (String × String)
  HandshakeComplete : Bool
  HandshakePMKID : Bool
  deriving DecidableEq, Repr

/-- The station a dangling pointer reads as (never reached from a heap in which
every stored pointer was allocated). -/
def nilStation : Station :=
  { HwAddress := "", HW := [], Hostname := "", Alias := "", Frequency := 0,
    Channel := 0, RSSI := 0, LastSeen := 0, Encryption := "", WPS := [],
    HandshakeComplete := false, HandshakePMKID := false }

/-- The heap of stations; `Ptr` p is the p-th allocated station. -/
abbrev Heap := List Station

/-- Read through a pointer. -/
def deref (heap : Heap) (p : Ptr) : Station := heap.getD p nilStation

/-- Write through a pointer: `*p = f(*p)`. -/
def update (heap : Heap) (p : Ptr) (f : Station → Station) : Heap :=
  heap.modify f p

/-- Allocate a station: the new pointer and the grown heap. -/
def alloc (heap : Heap) (s : Station) : Ptr × Heap := (heap.length, heap ++ [s])

/-- Go `type AccessPoint struct`: the embedded `*Station`, the alias store
(its content), the client map and the key-material flag. The lock is not
modelled: every operation below runs as one atomic step. -/
structure AccessPoint where
  Station : Ptr
  aliases : List (String × String)
  clients : List (String × Ptr)
  withKeyMaterial : Bool
  deriving DecidableEq, Repr

/-- Go `type apJSON struct`. -/
structure apJSON where
  Station : Ptr
  Clients : List Ptr
  Handshake : Bool
  deriving DecidableEq, Repr

/-- The functions of package `network` that `wifi_ap.go` calls and that are
declared outside it. -/
structure NetEnv where
  NormalizeMac : String → String
  NewStation : String → String → Int → Int → Station

/-! ## `network/wifi_ap.go` -/

/-- Go `m[k]` with the comma-ok form. -/
def mapGet (m : List (String × Ptr)) (k : String) : Option Ptr := m.lookup k

/-- Go `m[k] = v`. -/
def mapSet (m : List (String × Ptr)) (k : String) (v : Ptr) : List (String × Ptr) :=
  match m.lookup k with
  | some _ => m.map (fun kv => if kv.1 == k then (k, v) else kv)
  | none => m ++ [(k, v)]

/-- Go `delete(m, k)`. -/
def mapDelete (m : List (String × Ptr)) (k : String) : List (String × Ptr) :=
  m.filter (fun kv => !(kv.1 == k))

/-- `UnsortedKV.GetOr(key, default)` of the alias store. -/
def GetOr (aliases : List (String × String)) (key dflt : String) : String :=
  (aliases.lookup key).getD dflt

/-- Go `NewAccessPoint`: the station is allocated, the client map is empty. -/
def NewAccessPoint (net : NetEnv) (heap : Heap) (essid bssid : String) (frequency rssi : Int)
    (aliases : List (String × String)) : AccessPoint × Heap :=
  let (p, heap1) := alloc heap (net.NewStation essid bssid frequency rssi)
  ({ Station := p, aliases := aliases, clients := [], withKeyMaterial := false }, heap1)

/-- Go `AccessPoint.Get`. -/
def AccessPoint.Get (net : NetEnv) (ap : AccessPoint) (bssid : String) : Option Ptr × Bool :=
  let bssid := net.NormalizeMac bssid
  match mapGet ap.clients bssid with
  | some s => (some s, true)
  | none => (none, false)

/-- Go `AccessPoint.RemoveClient`. -/
def AccessPoint.RemoveClient (net : NetEnv) (ap : AccessPoint) (mac : String) : AccessPoint :=
  let bssid := net.NormalizeMac mac
  { ap with clients := mapDelete ap.clients bssid }

/-- Go `AccessPoint.AddClientIfNew`; `now` is the value of `time.Now()`.
Returns the station pointer, `isNew`, and the AccessPoint and heap after the
call. -/
def AccessPoint.AddClientIfNew (net : NetEnv) (now : Nat) (ap : AccessPoint) (heap : Heap)
    (bssid : String) (frequency rssi : Int) : (Ptr × Bool) × AccessPoint × Heap :=
  let bssid := net.NormalizeMac bssid
  let aliasOf := GetOr ap.aliases bssid ""
  match mapGet ap.clients bssid with
  | some s =>
    let heap1 := update heap s (fun st => { st with Frequency := frequency })
    let heap2 := update heap1 s (fun st => { st with RSSI := rssi })
    let heap3 := update heap2 s (fun st => { st with LastSeen := now })
    let heap4 := if aliasOf != "" then update heap3 s (fun st => { st with Alias := aliasOf }) else heap3
    ((s, false), ap, heap4)
  | none =>
    let (s, heap1) := alloc heap (net.NewStation "" bssid frequency rssi)
    let heap2 := update heap1 s (fun st => { st with Alias := aliasOf })
    ((s, true), { ap with clients := mapSet ap.clients bssid s }, heap2)

/-- Go `AccessPoint.NumClients`. -/
def AccessPoint.NumClients (ap : AccessPoint) : Nat := ap.clients.length

/-- Go `AccessPoint.Clients`: the stations of the map, in iteration order. -/
def AccessPoint.Clients (ap : AccessPoint) : List Ptr := ap.clients.map Prod.snd

/-- Go `AccessPoint.WithKeyMaterial`. -/
def AccessPoint.WithKeyMaterial (ap : AccessPoint) (state : Bool) : AccessPoint :=
  { ap with withKeyMaterial := state }

/-- Go `AccessPoint.HasKeyMaterial`. -/
def AccessPoint.HasKeyMaterial (ap : AccessPoint) : Bool := ap.withKeyMaterial

/-- Go `m[k] = v` on a `map[string]string`. -/
def strMapSet (m : List (String × String)) (k v : String) : List (String × String) :=
  match m.lookup k with
  | some _ => m.map (fun kv => if kv.1 == k then (k, v) else kv)
  | none => m ++ [(k, v)]

/-- The loop of `CopyMap`: `for k, v := range original { copy[k] = v }`. -/
def copyMapLoop : List (String × String) → List (String × String) → List (String × String)
  | [], copy => copy
  | (k, v) :: rest, copy => copyMapLoop rest (strMapSet copy k v)

/-- Go `CopyMap`. -/
def CopyMap (original : List (String × String)) : List (String × String) :=
  copyMapLoop original []

/-- The loop of `BuildDoc` over the client map: each client's `WPS` is replaced
by a copy, and the client pointer itself is appended to `clients`. -/
def buildDocLoop : List (String × Ptr) → List Ptr → Heap → List Ptr × Heap
  | [], clients, heap => (clients, heap)
  | (_, client) :: rest, clients, heap =>
    let wps := CopyMap (deref heap client).WPS
    let heap := update heap client (fun st => { st with WPS := wps })
    buildDocLoop rest (clients ++ [client]) heap

/-- Go `AccessPoint.BuildDoc`: the record, and the AccessPoint and heap after
the call. `station := ap.Station` copies the pointer. -/
def AccessPoint.BuildDoc (ap : AccessPoint) (heap : Heap) : apJSON × AccessPoint × Heap :=
  let r := buildDocLoop ap.clients [] heap
  let clients := r.1
  let heap := r.2
  let station := ap.Station
  let wps := CopyMap (deref heap ap.Station).WPS
  let heap := update heap station (fun st => { st with WPS := wps })
  let handshake := ap.withKeyMaterial
  ({ Station := station, Clients := clients, Handshake := handshake }, ap, heap)

/-- The loop of `EachClient`; the callback gets the key and the station
pointer and may write to the heap through it. -/
def eachClientLoop (cb : String → Ptr → Heap → Heap) : List (String × Ptr) → Heap → Heap
  | [], heap => heap
  | (m, station) :: rest, heap => eachClientLoop cb rest (cb m station heap)

/-- Go `AccessPoint.EachClient`: the AccessPoint and heap after the call. -/
def AccessPoint.EachClient (ap : AccessPoint) (heap : Heap) (cb : String → Ptr → Heap → Heap) :
    AccessPoint × Heap :=
  (ap, eachClientLoop cb ap.clients heap)

/-- The loop of `NumHandshakes`; `c.Handshake.Complete()` reads the station's
handshake state. -/
def numHandshakesLoop (heap : Heap) : List (String × Ptr) → Nat → Nat
  | [], sum => sum
  | (_, c) :: rest, sum =>
    if (deref heap c).HandshakeComplete then numHandshakesLoop heap rest (sum + 1)
    else numHandshakesLoop heap rest sum

/-- Go `AccessPoint.NumHandshakes`: the count, and the AccessPoint and heap
after the call (the method writes to neither). -/
def AccessPoint.NumHandshakes (ap : AccessPoint) (heap : Heap) : Nat × AccessPoint × Heap :=
  (numHandshakesLoop heap ap.clients 0, ap, heap)

/-- Go `AccessPoint.HasHandshakes`. -/
def AccessPoint.HasHandshakes (ap : AccessPoint) (heap : Heap) : Bool × AccessPoint × Heap :=
  let r := ap.NumHandshakes heap
  (decide (0 < r.1), r.2)

/-- The loop of `HasPMKID`, with its early return. -/
def hasPMKIDLoop (heap : Heap) : List (String × Ptr) → Bool
  | [] => false
  | (_, c) :: rest => if (deref heap c).HandshakePMKID then true else hasPMKIDLoop heap rest

/-- Go `AccessPoint.HasPMKID`: the answer, and the AccessPoint and heap after
the call (the method writes to neither). -/
def AccessPoint.HasPMKID (ap : AccessPoint) (heap : Heap) : Bool × AccessPoint × Heap :=
  (hasPMKIDLoop heap ap.clients, ap, heap)

/-! ## `modules/wifi/wifi_deauth.go` -/

/-- Go `bytes.Equal`. -/
def bytesEqual (a b : HardwareAddr) : Bool := decide (a = b)

/-- Modelled from the spec: the broadcast sentinel address `network.BroadcastHw`
(declared outside the embedded files), ff:ff:ff:ff:ff:ff. -/
def BroadcastHw : HardwareAddr := [255, 255, 255, 255, 255, 255]

/-- Modelled from the spec: `network.IsBroadcastMac` (declared outside the
embedded files): the target is the broadcast sentinel address. -/
def IsBroadcastMac (mac : HardwareAddr) : Bool := bytesEqual mac BroadcastHw

/-- Go local `type flow struct` of `startDeauth`. The `*AccessPoint` is held by
value: nothing in this file writes to an AccessPoint between resolution and
transmission. -/
structure flow where
  Ap : AccessPoint
  Client : Ptr
  deriving DecidableEq, Repr

/-- Go `error` values seen by `startDeauth`: the ones returned by collaborators
and the one built with `fmt.Errorf` for a target that resolves to nothing. -/
inductive Error where
  | ext (msg : String)
  | unknownBSSID (target : HardwareAddr)
  deriving DecidableEq, Repr

/-- What the radio side observes, in order. -/
inductive Event where
  | activate
  | release
  | hop (channel : Int)
  | inject (data : List Nat)
  deriving DecidableEq, Repr

/-- The fields of `WiFiModule` that `wifi_deauth.go` reads or writes, with the
observable effects made explicit: `handleOpen` is the state of `mod.handle`,
`writes` the counter of the wait group `mod.writes`, `polls` and `reads` count
the calls of `Running()` and `BoolParam()` made so far, `sent` and `errors` are
the statistics of `Session.Queue`, `trace` the radio events. -/
structure WiFiModule where
  deauthSkip : List HardwareAddr
  deauthSilent : Bool
  deauthOpen : Bool
  deauthAcquired : Bool
  deauthPackets : Int
  handleOpen : Bool
  writes : Int
  polls : Nat
  reads : Nat
  sent : Nat
  errors : Nat
  trace : List Event
  deriving DecidableEq, Repr

/-- The collaborators of `wifi_deauth.go` declared outside it. `Running k` is
the value of the k-th poll of the running flag, `BoolParam name k` the outcome
of the k-th parameter read, `WritePacketData k data` tells whether the write
made after k radio events succeeds, `sortSlice` is Go's `sort.Slice`. -/
structure Env where
  Running : Nat → Bool
  BoolParam : String → Nat → Except Error Bool
  StringParam : String → Except Error String
  ParseMACs : String → Except Error (List HardwareAddr)
  Configure : Except Error Unit
  NewDot11Deauth : HardwareAddr → HardwareAddr → HardwareAddr → Nat → Except Error (List Nat)
  WritePacketData : Nat → List Nat → Bool
  IsOpen : Station → Bool
  sortSlice : (flow → flow → Bool) → List flow → List flow

/-- Go `uint16(x)` of an `int`: reduction modulo 2^16. -/
def uint16 (x : Int) : Nat := (x % 65536).toNat

/-- One call of `mod.Running()`. -/
def WiFiModule.Running (env : Env) (mod : WiFiModule) : Bool × WiFiModule :=
  (env.Running mod.polls, { mod with polls := mod.polls + 1 })

/-- One call of `mod.BoolParam(name)`. -/
def WiFiModule.BoolParam (env : Env) (mod : WiFiModule) (name : String) :
    Except Error Bool × WiFiModule :=
  (env.BoolParam name mod.reads, { mod with reads := mod.reads + 1 })

/-- Go `WiFiModule.injectPacket`: the write is attempted, then the statistics
record an error or the bytes sent. -/
def WiFiModule.injectPacket (env : Env) (mod : WiFiModule) (data : List Nat) : WiFiModule :=
  let ok := env.WritePacketData mod.trace.length data
  let mod := { mod with trace := mod.trace ++ [Event.inject data] }
  if ok then { mod with sent := mod.sent + data.length }
  else { mod with errors := mod.errors + 1 }

/-- The loop of `sendDeauthPacket`. The first argument is
`uint16(mod.deauthPackets) - seq`, the number of sequence numbers still below
the bound; when it is zero the test `seq < uint16(mod.deauthPackets)` fails
and `Running()` is not polled. A construction error takes the `continue`. -/
def WiFiModule.sendDeauthLoop (env : Env) (ap client : HardwareAddr) :
    Nat → Nat → WiFiModule → WiFiModule
  | 0, _, mod => mod
  | n + 1, seq, mod =>
    let (running, mod) := mod.Running env
    if !running then mod
    else
      match env.NewDot11Deauth ap client ap seq with
      | .error _ => sendDeauthLoop env ap client n (seq + 1) mod
      | .ok pkt =>
        let mod := mod.injectPacket env pkt
        match env.NewDot11Deauth client ap ap seq with
        | .error _ => sendDeauthLoop env ap client n (seq + 1) mod
        | .ok pkt => sendDeauthLoop env ap client n (seq + 1) (mod.injectPacket env pkt)

/-- Go `WiFiModule.sendDeauthPacket` (the hostname is only logged). -/
def WiFiModule.sendDeauthPacket (env : Env) (mod : WiFiModule) (ap client : HardwareAddr) :
    WiFiModule :=
  WiFiModule.sendDeauthLoop env ap client (uint16 mod.deauthPackets) 0 mod

/-- The loop of `skipDeauth` over `mod.deauthSkip`. -/
def skipDeauthLoop (target : HardwareAddr) : List HardwareAddr → Bool
  | [] => false
  | mac :: rest => if bytesEqual target mac then true else skipDeauthLoop target rest

/-- Go `WiFiModule.skipDeauth`. -/
def WiFiModule.skipDeauth (mod : WiFiModule) (target : HardwareAddr) : Bool :=
  skipDeauthLoop target mod.deauthSkip

/-- Go `WiFiModule.isDeauthSilent`. -/
def WiFiModule.isDeauthSilent (env : Env) (mod : WiFiModule) : Bool × WiFiModule :=
  match mod.BoolParam env "wifi.deauth.silent" with
  | (Except.error _, mod) => (mod.deauthSilent, mod)
  | (Except.ok is, mod) => (is, { mod with deauthSilent := is })

/-- Go `WiFiModule.doDeauthOpen`. -/
def WiFiModule.doDeauthOpen (env : Env) (mod : WiFiModule) : Bool × WiFiModule :=
  match mod.BoolParam env "wifi.deauth.open" with
  | (Except.error _, mod) => (mod.deauthOpen, mod)
  | (Except.ok is, mod) => (is, { mod with deauthOpen := is })

/-- Go `WiFiModule.doDeauthAcquired`. -/
def WiFiModule.doDeauthAcquired (env : Env) (mod : WiFiModule) : Bool × WiFiModule :=
  match mod.BoolParam env "wifi.deauth.acquired" with
  | (Except.error _, mod) => (mod.deauthAcquired, mod)
  | (Except.ok is, mod) => (is, { mod with deauthAcquired := is })

/-- Modelled from the spec: `WiFiModule.onChannel` (declared outside the
embedded files): the radio is set to the channel, then the callback runs. -/
def WiFiModule.onChannel (mod : WiFiModule) (channel : Int) (cb : WiFiModule → WiFiModule) :
    WiFiModule :=
  cb { mod with trace := mod.trace ++ [Event.hop channel] }

/-- The inner loop of target resolution: the clients of one AccessPoint. -/
def resolveClients (mod : WiFiModule) (heap : Heap) (target : HardwareAddr) (isBcast isAP : Bool)
    (ap : AccessPoint) : List Ptr → List flow → List flow
  | [], toDeauth => toDeauth
  | client :: rest, toDeauth =>
    if isBcast || isAP || bytesEqual (deref heap client).HW target then
      if !mod.skipDeauth (deref heap ap.Station).HW && !mod.skipDeauth (deref heap client).HW then
        resolveClients mod heap target isBcast isAP ap rest (toDeauth ++ [{ Ap := ap, Client := client }])
      else
        resolveClients mod heap target isBcast isAP ap rest toDeauth
    else
      resolveClients mod heap target isBcast isAP ap rest toDeauth

/-- The outer loop of target resolution: the AccessPoints of the registry. -/
def resolveAPs (mod : WiFiModule) (heap : Heap) (target : HardwareAddr) (isBcast : Bool) :
    List AccessPoint → List flow → List flow
  | [], toDeauth => toDeauth
  | ap :: rest, toDeauth =>
    let isAP := bytesEqual (deref heap ap.Station).HW target
    resolveAPs mod heap target isBcast rest
      (resolveClients mod heap target isBcast isAP ap ap.Clients toDeauth)

/-- Target resolution of `startDeauth`: the value of `toDeauth` after the two
loops, for the registry `mod.Session.WiFi.List()`. -/
def resolveFlows (mod : WiFiModule) (heap : Heap) (registry : List AccessPoint)
    (target : HardwareAddr) : List flow :=
  resolveAPs mod heap target (IsBroadcastMac target) registry []

/-- What a call of `startDeauth` leaves behind: the returned error (if any),
the module, and the flow list captured by the goroutine it started (if any). -/
structure StartResult where
  err : Option Error
  mod : WiFiModule
  worker : Option (List flow)
  deriving DecidableEq, Repr

/-- Go `mod.handle.Close()`. -/
def WiFiModule.handleClose (mod : WiFiModule) : WiFiModule :=
  { mod with handleOpen := false, trace := mod.trace ++ [Event.release] }

/-- The part of `startDeauth` after the handle is available: resolution, the
empty-list outcome, and the launch of the worker. -/
def startDeauthResolve (heap : Heap) (registry : List AccessPoint) (mod : WiFiModule)
    (target : HardwareAddr) : StartResult :=
  let toDeauth := resolveFlows mod heap registry target
  let isBcast := IsBroadcastMac target
  if toDeauth.length == 0 then
    if isBcast then { err := none, mod := mod, worker := none }
    else { err := some (Error.unknownBSSID target), mod := mod, worker := none }
  else
    { err := none, mod := { mod with writes := mod.writes + 1 }, worker := some toDeauth }

/-- Go `WiFiModule.startDeauth`; its parameter `to` is written `target` here.
The deferred `mod.handle.Close()` runs when the function returns, on every path
after it was registered. -/
def WiFiModule.startDeauth (env : Env) (heap : Heap) (registry : List AccessPoint)
    (mod : WiFiModule) (target : HardwareAddr) : StartResult :=
  match env.StringParam "wifi.deauth.skip" with
  | .error err => { err := some err, mod := mod, worker := none }
  | .ok deauthSkip =>
    match env.ParseMACs deauthSkip with
    | .error err => { err := some err, mod := mod, worker := none }
    | .ok macs =>
      let mod := { mod with deauthSkip := macs }
      let (running, mod) := mod.Running env
      if !running then
        match env.Configure with
        | .error err => { err := some err, mod := mod, worker := none }
        | .ok _ =>
          let mod := { mod with handleOpen := true, trace := mod.trace ++ [Event.activate] }
          let r := startDeauthResolve heap registry mod target
          { r with mod := r.mod.handleClose }
      else
        startDeauthResolve heap registry mod target

/-- The comparison handed to `sort.Slice`: by AccessPoint channel. -/
def lessByChannel (heap : Heap) (a b : flow) : Bool :=
  decide ((deref heap a.Ap.Station).Channel < (deref heap b.Ap.Station).Channel)

/-- The body of the worker's loop for one flow. -/
def WiFiModule.deauthFlow (env : Env) (heap : Heap) (mod : WiFiModule) (deauth : flow) :
    WiFiModule :=
  let client := deauth.Client
  let ap := deauth.Ap
  let (running, mod) := mod.Running env
  if running then
    let (_, mod) := mod.isDeauthSilent env
    let (skipOpen, mod) :=
      if env.IsOpen (deref heap ap.Station) then
        let (d, m) := mod.doDeauthOpen env
        (!d, m)
      else (false, mod)
    if skipOpen then mod
    else
      let (skipAcquired, mod) :=
        if ap.HasKeyMaterial then
          let (d, m) := mod.doDeauthAcquired env
          (!d, m)
        else (false, mod)
      if skipAcquired then mod
      else
        mod.onChannel (deref heap ap.Station).Channel (fun m =>
          m.sendDeauthPacket env (deref heap ap.Station).HW (deref heap client).HW)
  else mod

/-- The worker's loop over the sorted flows. -/
def WiFiModule.deauthLoop (env : Env) (heap : Heap) : List flow → WiFiModule → WiFiModule
  | [], mod => mod
  | deauth :: rest, mod => deauthLoop env heap rest (mod.deauthFlow env heap deauth)

/-- The sequence the worker iterates: `toDeauth` after `sort.Slice`. -/
def schedule (env : Env) (heap : Heap) (toDeauth : List flow) : List flow :=
  env.sortSlice (lessByChannel heap) toDeauth

/-- The goroutine started by `startDeauth`; the deferred `mod.writes.Done()`
runs last. -/
def WiFiModule.deauthWorker (env : Env) (heap : Heap) (mod : WiFiModule) (toDeauth : List flow) :
    WiFiModule :=
  let mod := WiFiModule.deauthLoop env heap (schedule env heap toDeauth) mod
  { mod with writes := mod.writes - 1 }

/-! ## Observations used in the statements -/

/-- The test a pair passes to become a flow, for the parsed skip list `skip`. -/
def qualifies (skip : List HardwareAddr) (heap : Heap) (target : HardwareAddr) (ap : AccessPoint)
    (client : Ptr) : Prop :=
  (target = BroadcastHw ∨ (deref heap ap.Station).HW = target ∨ (deref heap client).HW = target) ∧
    (deref heap ap.Station).HW ∉ skip ∧ (deref heap client).HW ∉ skip

instance qualifies.decidable (skip : List HardwareAddr) (heap : Heap) (target : HardwareAddr)
    (ap : AccessPoint) (client : Ptr) : Decidable (qualifies skip heap target ap client) := by
  unfold qualifies
  infer_instance

/-- The frames handed to the radio, in order. -/
def injected : List Event → List (List Nat)
  | [] => []
  | Event.inject data :: rest => data :: injected rest
  | _ :: rest => injected rest

/-- The channel of a flow's AccessPoint. -/
def flow.channel (heap : Heap) (f : flow) : Int := (deref heap f.Ap.Station).Channel

/-! ## Example inputs -/

/-- An environment in which every collaborator succeeds: the running flag
reads true, every parameter read succeeds, the skip list is empty, and a frame
is the three addresses followed by the sequence number. -/
def envOk : Env :=
  { Running := fun _ => true
    BoolParam := fun _ _ => Except.ok true
    StringParam := fun _ => Except.ok ""
    ParseMACs := fun _ => Except.ok []
    Configure := Except.ok ()
    NewDot11Deauth := fun a1 a2 a3 seq => Except.ok (a1 ++ a2 ++ a3 ++ [seq])
    WritePacketData := fun _ _ => true
    IsOpen := fun s => s.Encryption == "" || s.Encryption == "OPEN"
    sortSlice := fun less l => List.insertionSort (fun a b => less b a = false) l }

/-- As `envOk`, but the skip-list parameter cannot be read. -/
def envNoParam : Env := { envOk with StringParam := fun _ => Except.error (Error.ext "no such parameter") }

/-- A module with nothing cached, a closed handle and four packets per flow. -/
def mod0 : WiFiModule :=
  { deauthSkip := [], deauthSilent := false, deauthOpen := true, deauthAcquired := true,
    deauthPackets := 4, handleOpen := false, writes := 0, polls := 0, reads := 0,
    sent := 0, errors := 0, trace := [] }

/-- A station with the given address bytes and channel. -/
def stationAt (hw : HardwareAddr) (channel : Int) : Station :=
  { nilStation with HW := hw, Channel := channel, Encryption := "WPA2" }

/-- A heap with an AccessPoint station on channel 6 (pointer 0) and two client
stations (pointers 1 and 2). -/
def heapA : Heap :=
  [stationAt [2, 0, 0, 0, 0, 1] 6, stationAt [2, 0, 0, 0, 0, 2] 6, stationAt [2, 0, 0, 0, 0, 3] 6]

/-- The AccessPoint of `heapA` with its two clients. -/
def apA : AccessPoint :=
  { Station := 0, aliases := [],
    clients := [("02:00:00:00:00:02", 1), ("02:00:00:00:00:03", 2)], withKeyMaterial := false }

/-- The frames one sequence number contributes while the flag reads true: none
when the construction of the first frame fails (the second is then not
attempted), the first alone when the construction of the second fails, both
otherwise. -/
def seqFrames (env : Env) (ap client : HardwareAddr) (seq : Nat) : List (List Nat) :=
  match env.NewDot11Deauth ap client ap seq, env.NewDot11Deauth client ap ap seq with
  | Except.error _, _ => []
  | Except.ok p1, Except.error _ => [p1]
  | Except.ok p1, Except.ok p2 => [p1, p2]

/-- How many of the next n polls of the running flag, starting with poll p,
read true before one reads false. -/
def pollsTrue (env : Env) : Nat → Nat → Nat
  | 0, _ => 0
  | n + 1, p => if env.Running p then pollsTrue env n (p + 1) + 1 else 0

/-- The value a policy toggle takes for one read: the value read, or the cached
one when the read fails. -/
def toggle (read : Except Error Bool) (cached : Bool) : Bool :=
  match read with
  | Except.ok is => is
  | Except.error _ => cached

/-- As `envOk`, but a frame whose source address is the BSSID cannot be built
(the AP-to-client frame of every sequence number). -/
def envFirstFails : Env :=
  { envOk with
    NewDot11Deauth := fun a1 a2 a3 seq =>
      if a1 = a3 then Except.error (Error.ext "cannot serialize")
      else Except.ok (a1 ++ a2 ++ a3 ++ [seq]) }

/-- As `envOk`, but the first poll of the running flag reads false and every
later poll reads true (the module is started again in between). -/
def envRestart : Env := { envOk with Running := fun k => decide (k ≠ 0) }

/-- The two flows of `apA`. -/
def flowA1 : flow := { Ap := apA, Client := 1 }

/-- The second flow of `apA`. -/
def flowA2 : flow := { Ap := apA, Client := 2 }

/-- As `envOk`, but the running flag reads false at every poll. -/
def envStopped : Env := { envOk with Running := fun _ => false }

/-- As `envOk`, but the parameter store has the policy toggles disabled. -/
def envNoPolicy : Env := { envOk with BoolParam := fun _ _ => Except.ok false }

/-- The AccessPoint of `heapA`, with key material acquired. -/
def apAcquired : AccessPoint := { apA with withKeyMaterial := true }

/-! ## `sort.Slice`

`startDeauth` sorts with `sort.Slice` of the Go standard library. Its
documentation promises a sorted permutation for a strict weak ordering and
states that the sort is not guaranteed to be stable. `SortSliceContract` is
that promise; `goSortSlice` follows the library's implementation
(pattern-defeating quicksort, `zsortfunc.go`) on a list with
index-based `Less` and `Swap`. -/

/-- The requirement `sort.Slice` puts on `less`: a strict weak ordering. -/
def StrictWeakOrder (less : flow → flow → Bool) : Prop :=
  (∀ a, less a a = false) ∧
    (∀ a b c, less a b = true → less b c = true → less a c = true) ∧
    (∀ a b c, less a b = false → less b c = false → less a c = false)

/-- The documented contract of `sort.Slice`: for a strict weak ordering the
result is a permutation of the input in which no later element is less than an
earlier one. Nothing is promised about elements that compare equal. -/
def SortSliceContract (sortSlice : (flow → flow → Bool) → List flow → List flow) : Prop :=
  ∀ less, StrictWeakOrder less → ∀ l,
    (sortSlice less l).Perm l ∧ (sortSlice less l).Pairwise (fun a b => less b a = false)

/-- `data.Less(i, j)` of the `lessSwap` pair built by `sort.Slice`. -/
def lessAt (less : flow → flow → Bool) (data : List flow) (i j : Nat) : Bool :=
  match data[i]?, data[j]? with
  | some x, some y => less x y
  | _, _ => false

/-- `data.Swap(i, j)`. -/
def swapAt (data : List flow) (i j : Nat) : List flow :=
  match data[i]?, data[j]? with
  | some x, some y => (data.set i y).set j x
  | _, _ => data

/-- The inner loop of `insertionSort_func`:
`for j := i; j > a && data.Less(j, j-1); j-- { data.Swap(j, j-1) }`. -/
def insertionInner (less : flow → flow → Bool) (a : Nat) : Nat → List flow → List flow
  | 0, data => data
  | j + 1, data =>
    if a < j + 1 && lessAt less data (j + 1) j then
      insertionInner less a j (swapAt data (j + 1) j)
    else data

/-- The outer loop of `insertionSort_func`; the first argument is `b - i`. -/
def insertionOuter (less : flow → flow → Bool) (a : Nat) : Nat → Nat → List flow → List flow
  | 0, _, data => data
  | n + 1, i, data => insertionOuter less a n (i + 1) (insertionInner less a i data)

/-- Go `insertionSort_func(data, a, b)`. -/
def insertionSort_func (less : flow → flow → Bool) (data : List flow) (a b : Nat) : List flow :=
  insertionOuter less a (b - (a + 1)) (a + 1) data

/-- Go `siftDown_func(data, lo, hi, first)`, started at `root = lo`; the first
argument bounds the number of iterations. -/
def siftDown_func (less : flow → flow → Bool) (hi first : Nat) : Nat → Nat → List flow → List flow
  | 0, _, data => data
  | fuel + 1, root, data =>
    let child := 2 * root + 1
    if hi ≤ child then data
    else
      let child :=
        if child + 1 < hi && lessAt less data (first + child) (first + child + 1) then child + 1
        else child
      if !lessAt less data (first + root) (first + child) then data
      else siftDown_func less hi first fuel child (swapAt data (first + root) (first + child))

/-- The first loop of `heapSort_func`; the argument is `i + 1`. -/
def heapBuild (less : flow → flow → Bool) (hi first : Nat) : Nat → List flow → List flow
  | 0, data => data
  | i + 1, data => heapBuild less hi first i (siftDown_func less hi first hi i data)

/-- The second loop of `heapSort_func`; the argument is `i + 1`. -/
def heapPop (less : flow → flow → Bool) (first : Nat) : Nat → List flow → List flow
  | 0, data => data
  | i + 1, data =>
    heapPop less first i (siftDown_func less i first i 0 (swapAt data first (first + i)))

/-- Go `heapSort_func(data, a, b)`. -/
def heapSort_func (less : flow → flow → Bool) (data : List flow) (a b : Nat) : List flow :=
  heapPop less a (b - a) (heapBuild less (b - a) a ((b - a - 1) / 2 + 1) data)

/-- Go `for i <= j && p(i) { i++ }`; the first argument bounds the iterations. -/
def scanUp (p : Nat → Bool) (j : Nat) : Nat → Nat → Nat
  | 0, i => i
  | fuel + 1, i => if i ≤ j && p i then scanUp p j fuel (i + 1) else i

/-- Go `for i <= j && p(j) { j-- }`; the first argument bounds the iterations. -/
def scanDown (p : Nat → Bool) (i : Nat) : Nat → Nat → Nat
  | 0, j => j
  | fuel + 1, j => if i ≤ j && p j then scanDown p i fuel (j - 1) else j

/-- The `for` loop of `partition_func` after the first swap. -/
def partitionLoop (less : flow → flow → Bool) (a : Nat) :
    Nat → List flow → Nat → Nat → List flow × Nat
  | 0, data, _, j => (data, j)
  | fuel + 1, data, i, j =>
    let i := scanUp (fun i => lessAt less data i a) j data.length i
    let j := scanDown (fun j => !lessAt less data j a) i data.length j
    if j < i then (data, j)
    else partitionLoop less a fuel (swapAt data i j) (i + 1) (j - 1)

/-- Go `partition_func(data, a, b, pivot)`: the data, `newpivot` and
`alreadyPartitioned`. -/
def partition_func (less : flow → flow → Bool) (data : List flow) (a b pivot : Nat) :
    List flow × Nat × Bool :=
  let data := swapAt data a pivot
  let i := scanUp (fun i => lessAt less data i a) (b - 1) data.length (a + 1)
  let j := scanDown (fun j => !lessAt less data j a) i data.length (b - 1)
  if j < i then (swapAt data j a, j, true)
  else
    let r := partitionLoop less a data.length (swapAt data i j) (i + 1) (j - 1)
    (swapAt r.1 r.2 a, r.2, false)

/-- The `for` loop of `partitionEqual_func`. -/
def partitionEqualLoop (less : flow → flow → Bool) (a : Nat) :
    Nat → List flow → Nat → Nat → List flow × Nat
  | 0, data, i, _ => (data, i)
  | fuel + 1, data, i, j =>
    let i := scanUp (fun i => !lessAt less data a i) j data.length i
    let j := scanDown (fun j => lessAt less data a j) i data.length j
    if j < i then (data, i)
    else partitionEqualLoop less a fuel (swapAt data i j) (i + 1) (j - 1)

/-- Go `partitionEqual_func(data, a, b, pivot)`. -/
def partitionEqual_func (less : flow → flow → Bool) (data : List flow) (a b pivot : Nat) :
    List flow × Nat :=
  let data := swapAt data a pivot
  partitionEqualLoop less a data.length data (a + 1) (b - 1)

/-- Go `for i < b && p(i) { i++ }`; the first argument bounds the iterations. -/
def scanBelow (p : Nat → Bool) (b : Nat) : Nat → Nat → Nat
  | 0, i => i
  | fuel + 1, i => if i < b && p i then scanBelow p b fuel (i + 1) else i

/-- `partialInsertionSort_func`, shifting the smaller element to the left:
`for j := i - 1; j >= 1; j--`; the argument is `j`. -/
def shiftLeft (less : flow → flow → Bool) : Nat → List flow → List flow
  | 0, data => data
  | j + 1, data =>
    if !lessAt less data (j + 1) j then data
    else shiftLeft less j (swapAt data (j + 1) j)

/-- `partialInsertionSort_func`, shifting the greater element to the right:
`for j := i + 1; j < b; j++`; the first argument bounds the iterations. -/
def shiftRight (less : flow → flow → Bool) (b : Nat) : Nat → Nat → List flow → List flow
  | 0, _, data => data
  | fuel + 1, j, data =>
    if j < b then
      if !lessAt less data j (j - 1) then data
      else shiftRight less b fuel (j + 1) (swapAt data j (j - 1))
    else data

/-- The loop of `partialInsertionSort_func`; the first argument is
`maxSteps - j`. -/
def partialInsertionLoop (less : flow → flow → Bool) (a b : Nat) :
    Nat → Nat → List flow → List flow × Bool
  | 0, _, data => (data, false)
  | steps + 1, i, data =>
    let i := scanBelow (fun i => !lessAt less data i (i - 1)) b data.length i
    if i = b then (data, true)
    else if b - a < 50 then (data, false)
    else
      let data := swapAt data i (i - 1)
      let data := if 2 ≤ i - a then shiftLeft less (i - 1) data else data
      let data := if 2 ≤ b - i then shiftRight less b data.length (i + 1) data else data
      partialInsertionLoop less a b steps i data

/-- Go `partialInsertionSort_func(data, a, b)`: the data and whether it is
sorted at the end. -/
def partialInsertionSort_func (less : flow → flow → Bool) (data : List flow) (a b : Nat) :
    List flow × Bool :=
  partialInsertionLoop less a b 5 (a + 1) data

/-- Go `bits.Len`: the number of bits needed to write n. -/
def bitsLen (n : Nat) : Nat := if n = 0 then 0 else Nat.log2 n + 1

/-- Go `xorshift.Next` on a 64-bit state: shifts by 13 to the left, 7 to the
right and 17 to the left. -/
def xorshiftNext (r : Nat) : Nat :=
  let r := r ^^^ ((r <<< 13) % 2 ^ 64)
  let r := r ^^^ (r >>> 7)
  r ^^^ ((r <<< 17) % 2 ^ 64)

/-- The loop of `breakPatterns_func`, which swaps the three positions `idx`,
`idx + 1`, `idx + 2` with pseudo-random ones; the first argument is `3 - i`. -/
def breakPatternsLoop (a length modulus idx : Nat) : Nat → Nat → Nat → List flow → List flow
  | 0, _, _, data => data
  | n + 1, i, random, data =>
    let random := xorshiftNext random
    let other := random &&& (modulus - 1)
    let other := if length ≤ other then other - length else other
    breakPatternsLoop a length modulus idx n (i + 1) random (swapAt data (idx + i) (a + other))

/-- Go `breakPatterns_func(data, a, b)`. -/
def breakPatterns_func (data : List flow) (a b : Nat) : List flow :=
  let length := b - a
  if 8 ≤ length then
    breakPatternsLoop a length (2 ^ bitsLen length) (a + (length / 4) * 2 - 1) 3 0 length data
  else data

/-- Go `type sortedHint`. -/
inductive sortedHint where
  | unknownHint
  | increasingHint
  | decreasingHint
  deriving DecidableEq, Repr

/-- Go `order2_func(data, a, b, swaps)`: the two indices and the new count of
swaps. -/
def order2_func (less : flow → flow → Bool) (data : List flow) (a b swaps : Nat) :
    Nat × Nat × Nat :=
  if lessAt less data b a then (b, a, swaps + 1) else (a, b, swaps)

/-- Go `median_func(data, a, b, c, swaps)`: the index and the new count. -/
def median_func (less : flow → flow → Bool) (data : List flow) (a b c swaps : Nat) : Nat × Nat :=
  let r1 := order2_func less data a b swaps
  let r2 := order2_func less data r1.2.1 c r1.2.2
  let r3 := order2_func less data r1.1 r2.1 r2.2.2
  (r3.2.1, r3.2.2)

/-- Go `medianAdjacent_func(data, a, swaps)`. -/
def medianAdjacent_func (less : flow → flow → Bool) (data : List flow) (a swaps : Nat) : Nat × Nat :=
  median_func less data (a - 1) a (a + 1) swaps

/-- Go `choosePivot_func(data, a, b)`. -/
def choosePivot_func (less : flow → flow → Bool) (data : List flow) (a b : Nat) :
    Nat × sortedHint :=
  let l := b - a
  let i := a + l / 4 * 1
  let j := a + l / 4 * 2
  let k := a + l / 4 * 3
  let r :=
    if 8 ≤ l then
      if 50 ≤ l then
        let ri := medianAdjacent_func less data i 0
        let rj := medianAdjacent_func less data j ri.2
        let rk := medianAdjacent_func less data k rj.2
        median_func less data ri.1 rj.1 rk.1 rk.2
      else median_func less data i j k 0
    else (j, 0)
  if r.2 = 0 then (r.1, sortedHint.increasingHint)
  else if r.2 = 12 then (r.1, sortedHint.decreasingHint)
  else (r.1, sortedHint.unknownHint)

/-- The loop of `reverseRange_func`; the first argument bounds the iterations. -/
def reverseRangeLoop : Nat → Nat → Nat → List flow → List flow
  | 0, _, _, data => data
  | fuel + 1, i, j, data =>
    if i < j then reverseRangeLoop fuel (i + 1) (j - 1) (swapAt data i j) else data

/-- Go `reverseRange_func(data, a, b)`. -/
def reverseRange_func (data : List flow) (a b : Nat) : List flow :=
  reverseRangeLoop data.length a (b - 1) data

/-- Go `pdqsort_func(data, a, b, limit)`. Every pass of its loop and every
recursive call works on a shorter range; the first argument bounds their
number. `wasBalanced` and `wasPartitioned` are the loop's two local flags. -/
def pdqsort_func (less : flow → flow → Bool) :
    Nat → List flow → Nat → Nat → Nat → Bool → Bool → List flow
  | 0, data, _, _, _, _, _ => data
  | fuel + 1, data, a, b, limit, wasBalanced, wasPartitioned =>
    let length := b - a
    if length ≤ 12 then insertionSort_func less data a b
    else if limit = 0 then heapSort_func less data a b
    else
      let data := if wasBalanced then data else breakPatterns_func data a b
      let limit := if wasBalanced then limit else limit - 1
      let choice := choosePivot_func less data a b
      let decreasing := decide (choice.2 = sortedHint.decreasingHint)
      let data := if decreasing then reverseRange_func data a b else data
      let pivot := if decreasing then (b - 1) - (choice.1 - a) else choice.1
      let hint := if decreasing then sortedHint.increasingHint else choice.2
      let tried :=
        if wasBalanced && wasPartitioned && decide (hint = sortedHint.increasingHint) then
          partialInsertionSort_func less data a b
        else (data, false)
      if tried.2 then tried.1
      else
        let data := tried.1
        if 0 < a && !lessAt less data (a - 1) pivot then
          let r := partitionEqual_func less data a b pivot
          pdqsort_func less fuel r.1 r.2 b limit wasBalanced wasPartitioned
        else
          let r := partition_func less data a b pivot
          let mid := r.2.1
          let leftLen := mid - a
          let rightLen := b - mid
          let balanceThreshold := length / 8
          if leftLen < rightLen then
            pdqsort_func less fuel (pdqsort_func less fuel r.1 a mid limit true true)
              (mid + 1) b limit (decide (balanceThreshold ≤ leftLen)) r.2.2
          else
            pdqsort_func less fuel (pdqsort_func less fuel r.1 (mid + 1) b limit true true)
              a mid limit (decide (balanceThreshold ≤ rightLen)) r.2.2

/-- Go `sort.Slice(x, less)`, with `less` on the elements instead of their
indices. -/
def goSortSlice (less : flow → flow → Bool) (x : List flow) : List flow :=
  pdqsort_func less (x.length + 1) x 0 x.length (bitsLen x.length) true true

/-- As `envOk`, with the library's `sort.Slice`. -/
def envGo : Env := { envOk with sortSlice := goSortSlice }

/-- A heap with an AccessPoint on channel 6 (pointer 0), its twelve clients
(pointers 1 to 12), an AccessPoint on channel 1 (pointer 13) and its client
(pointer 14). -/
def heapB : Heap :=
  stationAt [2, 0, 0, 0, 0, 0] 6 ::
    ((List.range 12).map (fun k => stationAt [2, 0, 0, 0, 1, k] 6) ++
      [stationAt [2, 0, 0, 0, 0, 13] 1, stationAt [2, 0, 0, 0, 0, 14] 1])

/-- The channel-6 AccessPoint of `heapB` with its twelve clients. -/
def apSix : AccessPoint :=
  { Station := 0, aliases := [],
    clients := [("02:00:00:00:01:00", 1), ("02:00:00:00:01:01", 2), ("02:00:00:00:01:02", 3),
      ("02:00:00:00:01:03", 4), ("02:00:00:00:01:04", 5), ("02:00:00:00:01:05", 6),
      ("02:00:00:00:01:06", 7), ("02:00:00:00:01:07", 8), ("02:00:00:00:01:08", 9),
      ("02:00:00:00:01:09", 10), ("02:00:00:00:01:0a", 11), ("02:00:00:00:01:0b", 12)],
    withKeyMaterial := false }

/-- The channel-1 AccessPoint of `heapB` with its client. -/
def apOne : AccessPoint :=
  { Station := 13, aliases := [], clients := [("02:00:00:00:00:0e", 14)], withKeyMaterial := false }

/-- A `NetEnv` whose `NormalizeMac` lowers the one address written in capitals
and whose `NewStation` stores the normalized address, on 2412 MHz channel 1. -/
def netA : NetEnv :=
  { NormalizeMac := fun m => if m = "02:00:00:00:00:0A" then "02:00:00:00:00:0a" else m
    NewStation := fun _ bssid frequency rssi =>
      { nilStation with
        HwAddress := if bssid = "02:00:00:00:00:0A" then "02:00:00:00:00:0a" else bssid
        Frequency := frequency, RSSI := rssi } }

/-- An AccessPoint over `heapA` whose two clients are keyed by their addresses
and which has an alias for the first. -/
def apKeyed : AccessPoint :=
  { Station := 0, aliases := [("02:00:00:00:00:0a", "laptop")],
    clients := [("02:00:00:00:00:0a", 1), ("02:00:00:00:00:0b", 2)], withKeyMaterial := false }

/-- The client records a snapshot shows when it is read against the heap (as a
serializer does): the stations its client pointers refer to. -/
def apJSON.records (doc : apJSON) (heap : Heap) : List Bettercap.Station :=
  doc.Clients.map (deref heap)

/-- As `heapA`, with every station on 2437 MHz and a WPS entry on the first
client. -/
def heapC : Heap :=
  [{ stationAt [2, 0, 0, 0, 0, 1] 6 with Frequency := 2437 },
    { stationAt [2, 0, 0, 0, 0, 2] 6 with Frequency := 2437, WPS := [("Version", "1.0")] },
    { stationAt [2, 0, 0, 0, 0, 3] 6 with Frequency := 2437 }]

/-- What the data model lets a callback of `EachClient` do to the stations:
every allocated station stays allocated and keeps its address. -/
def KeepsAddresses (cb : String → Ptr → Heap → Heap) : Prop :=
  ∀ m p heap, heap.length ≤ (cb m p heap).length ∧
    ∀ q, q < heap.length → (deref (cb m p heap) q).HwAddress = (deref heap q).HwAddress

/-- The states (AccessPoint and heap) reachable from `NewAccessPoint` by calls
of `AddClientIfNew`, `RemoveClient`, `WithKeyMaterial`, `EachClient` and
`BuildDoc`, where every address handed to `AddClientIfNew` has a normal form
that `NormalizeMac` leaves as it is, and the callbacks of `EachClient` leave
station addresses alone. -/
inductive Reachable (net : NetEnv) : AccessPoint → Heap → Prop where
  | newAccessPoint (heap : Heap) (essid bssid : String) (frequency rssi : Int)
      (aliases : List (String × String)) :
      Reachable net (NewAccessPoint net heap essid bssid frequency rssi aliases).1
        (NewAccessPoint net heap essid bssid frequency rssi aliases).2
  | addClientIfNew {ap : AccessPoint} {heap : Heap} (h : Reachable net ap heap) (now : Nat)
      (bssid : String) (frequency rssi : Int)
      (hb : net.NormalizeMac (net.NormalizeMac bssid) = net.NormalizeMac bssid) :
      Reachable net (ap.AddClientIfNew net now heap bssid frequency rssi).2.1
        (ap.AddClientIfNew net now heap bssid frequency rssi).2.2
  | removeClient {ap : AccessPoint} {heap : Heap} (h : Reachable net ap heap) (mac : String) :
      Reachable net (ap.RemoveClient net mac) heap
  | withKeyMaterial {ap : AccessPoint} {heap : Heap} (h : Reachable net ap heap) (state : Bool) :
      Reachable net (ap.WithKeyMaterial state) heap
  | eachClient {ap : AccessPoint} {heap : Heap} (h : Reachable net ap heap)
      (cb : String → Ptr → Heap → Heap) (hcb : KeepsAddresses cb) :
      Reachable net (ap.EachClient heap cb).1 (ap.EachClient heap cb).2
  | buildDoc {ap : AccessPoint} {heap : Heap} (h : Reachable net ap heap) :
      Reachable net (ap.BuildDoc heap).2.1 (ap.BuildDoc heap).2.2

/-- The client-key invariant: every entry of the client map holds a valid
pointer to a station whose address is the key, and the key is normalized. -/
def KeysMatch (net : NetEnv) (ap : AccessPoint) (heap : Heap) : Prop :=
  ∀ kv ∈ ap.clients,
    kv.2 < heap.length ∧ (deref heap kv.2).HwAddress = kv.1 ∧ net.NormalizeMac kv.1 = kv.1

/-- Every (AccessPoint, client) pair of the registry, in iteration order. -/
def allPairs (registry : List AccessPoint) : List flow :=
  registry.flatMap (fun ap => ap.Clients.map (fun client => { Ap := ap, Client := client }))

/-- As `envOk`, but the module is not running and the interface cannot be
activated: `Configure` fails. -/
def envNoHandle : Env :=
  { envOk with
    Running := fun _ => false
    Configure := Except.error (Error.ext "cannot open interface") }

/-- Go `strings.Split(s, sep)` for a one-character separator, on the characters
of the string: the parts between the separators (one empty part for the empty
string). -/
def splitChars (sep : Char) : List Char → List (List Char)
  | [] => [[]]
  | c :: rest =>
    if c = sep then [] :: splitChars sep rest
    else
      match splitChars sep rest with
      | [] => [[c]]
      | part :: parts => (c :: part) :: parts

/-- Go `strings.ToLower` on one character of an address; addresses are ASCII
text, in which the letters A to Z are the ones it changes. -/
def lowerChar (c : Char) : Char :=
  if c = 'A' then 'a' else if c = 'B' then 'b' else if c = 'C' then 'c'
  else if c = 'D' then 'd' else if c = 'E' then 'e' else if c = 'F' then 'f'
  else if c = 'G' then 'g' else if c = 'H' then 'h' else if c = 'I' then 'i'
  else if c = 'J' then 'j' else if c = 'K' then 'k' else if c = 'L' then 'l'
  else if c = 'M' then 'm' else if c = 'N' then 'n' else if c = 'O' then 'o'
  else if c = 'P' then 'p' else if c = 'Q' then 'q' else if c = 'R' then 'r'
  else if c = 'S' then 's' else if c = 'T' then 't' else if c = 'U' then 'u'
  else if c = 'V' then 'v' else if c = 'W' then 'w' else if c = 'X' then 'x'
  else if c = 'Y' then 'y' else if c = 'Z' then 'z' else c

/-- The padding step of `NormalizeMac`: a part shorter than two characters
(bytes, in ASCII text) gets one "0" in front. -/
def padPart (p : List Char) : List Char := if p.length < 2 then '0' :: p else p

/-- Go `strings.Join(parts, ":")` on the characters. -/
def joinChars : List (List Char) → List Char
  | [] => []
  | [p] => p
  | p :: q :: rest => p ++ ':' :: joinChars (q :: rest)

/-- `NormalizeMac` on the characters of the address. -/
def normalizeMacChars (mac : List Char) : List Char :=
  let parts := if '-' ∈ mac then splitChars '-' mac else splitChars ':' mac
  (joinChars (parts.map padPart)).map lowerChar

/-- Modelled from the spec: `network.NormalizeMac` (declared outside the
embedded files), the normalization of an address. The rule is the
repository's: the address is split at "-" if it contains one and at ":"
otherwise, every part shorter than two characters gets one "0" in front, and
the parts are joined with ":" and lower-cased. -/
def NormalizeMac (mac : String) : String := String.mk (normalizeMacChars mac.data)

/-- Modelled from the spec: `network.NewStation` (declared outside the embedded
files): a new station whose address is the normalized hardware address of the
`bssid` it is given, with the frequency and signal given and no handshake
captured; the attributes derived from them (address bytes, channel) are not
used below and are left at their zero values. -/
def NewStation (essid bssid : String) (frequency rssi : Int) : Station :=
  { nilStation with
    HwAddress := NormalizeMac bssid, Hostname := essid, Frequency := frequency, RSSI := rssi }

/-- The package `network` as `wifi_ap.go` sees it. -/
def netGo : NetEnv := { NormalizeMac := NormalizeMac, NewStation := NewStation }

/-! ## Target resolution -/

theorem bytesEqual_iff (a b : HardwareAddr) : bytesEqual a b = true ↔ a = b := by
  simp [bytesEqual]

theorem skipDeauthLoop_iff (target : HardwareAddr) (skip : List HardwareAddr) :
    skipDeauthLoop target skip = true ↔ target ∈ skip := by
  induction skip with
  | nil => simp [skipDeauthLoop]
  | cons mac rest ih =>
    by_cases h : target = mac
    · simp [skipDeauthLoop, bytesEqual, h]
    · simp [skipDeauthLoop, bytesEqual, h, ih]

theorem skipDeauth_iff (mod : WiFiModule) (target : HardwareAddr) :
    mod.skipDeauth target = true ↔ target ∈ mod.deauthSkip :=
  skipDeauthLoop_iff target mod.deauthSkip

theorem mem_resolveClients (mod : WiFiModule) (heap : Heap) (target : HardwareAddr)
    (ap : AccessPoint) (f : flow) (cs : List Ptr) (acc : List flow) :
    f ∈ resolveClients mod heap target (IsBroadcastMac target)
        (bytesEqual (deref heap ap.Station).HW target) ap cs acc ↔
      f ∈ acc ∨ (f.Ap = ap ∧ f.Client ∈ cs ∧ qualifies mod.deauthSkip heap target ap f.Client) := by
  induction cs generalizing acc with
  | nil => simp [resolveClients]
  | cons c rest ih =>
    have hq : qualifies mod.deauthSkip heap target ap c ↔
        ((IsBroadcastMac target || bytesEqual (deref heap ap.Station).HW target ||
            bytesEqual (deref heap c).HW target) = true) ∧
          ((!mod.skipDeauth (deref heap ap.Station).HW && !mod.skipDeauth (deref heap c).HW)
            = true) := by
      simp only [qualifies, IsBroadcastMac, Bool.or_eq_true, bytesEqual_iff, Bool.and_eq_true,
        Bool.not_eq_true', ← Bool.not_eq_true, skipDeauth_iff, or_assoc]
    unfold resolveClients
    by_cases h1 : (IsBroadcastMac target || bytesEqual (deref heap ap.Station).HW target ||
        bytesEqual (deref heap c).HW target) = true
    · by_cases h2 : (!mod.skipDeauth (deref heap ap.Station).HW &&
          !mod.skipDeauth (deref heap c).HW) = true
      · have hc : qualifies mod.deauthSkip heap target ap c := hq.2 ⟨h1, h2⟩
        rw [if_pos h1, if_pos h2, ih]
        constructor
        · rintro (h | ⟨ha, hm, hql⟩)
          · rcases List.mem_append.1 h with h | h
            · exact Or.inl h
            · have hf : f = { Ap := ap, Client := c } := by simpa using h
              subst hf
              exact Or.inr ⟨rfl, List.mem_cons_self _ _, hc⟩
          · exact Or.inr ⟨ha, List.mem_cons_of_mem _ hm, hql⟩
        · rintro (h | ⟨ha, hm, hql⟩)
          · exact Or.inl (List.mem_append.2 (Or.inl h))
          · rcases List.mem_cons.1 hm with hm | hm
            · refine Or.inl (List.mem_append.2 (Or.inr ?_))
              cases f
              simp only [List.mem_singleton, flow.mk.injEq]
              exact ⟨ha, hm⟩
            · exact Or.inr ⟨ha, hm, hql⟩
      · have hc : ¬ qualifies mod.deauthSkip heap target ap c := fun h => h2 (hq.1 h).2
        rw [if_pos h1, if_neg h2, ih]
        constructor
        · rintro (h | ⟨ha, hm, hql⟩)
          · exact Or.inl h
          · exact Or.inr ⟨ha, List.mem_cons_of_mem _ hm, hql⟩
        · rintro (h | ⟨ha, hm, hql⟩)
          · exact Or.inl h
          · rcases List.mem_cons.1 hm with hm | hm
            · exact absurd (hm ▸ hql) hc
            · exact Or.inr ⟨ha, hm, hql⟩
    · have hc : ¬ qualifies mod.deauthSkip heap target ap c := fun h => h1 (hq.1 h).1
      rw [if_neg h1, ih]
      constructor
      · rintro (h | ⟨ha, hm, hql⟩)
        · exact Or.inl h
        · exact Or.inr ⟨ha, List.mem_cons_of_mem _ hm, hql⟩
      · rintro (h | ⟨ha, hm, hql⟩)
        · exact Or.inl h
        · rcases List.mem_cons.1 hm with hm | hm
          · exact absurd (hm ▸ hql) hc
          · exact Or.inr ⟨ha, hm, hql⟩

theorem mem_resolveAPs (mod : WiFiModule) (heap : Heap) (target : HardwareAddr) (f : flow)
    (aps : List AccessPoint) (acc : List flow) :
    f ∈ resolveAPs mod heap target (IsBroadcastMac target) aps acc ↔
      f ∈ acc ∨ (f.Ap ∈ aps ∧ f.Client ∈ f.Ap.Clients ∧ qualifies mod.deauthSkip heap target f.Ap f.Client) := by
  induction aps generalizing acc with
  | nil => simp [resolveAPs]
  | cons ap rest ih =>
    simp only [resolveAPs, ih, mem_resolveClients, List.mem_cons]
    constructor
    · rintro ((h | ⟨ha, hm, hq⟩) | ⟨ha, hm, hq⟩)
      · exact Or.inl h
      · exact Or.inr ⟨Or.inl ha, ha ▸ hm, ha ▸ hq⟩
      · exact Or.inr ⟨Or.inr ha, hm, hq⟩
    · rintro (h | ⟨ha | ha, hm, hq⟩)
      · exact Or.inl (Or.inl h)
      · exact Or.inl (Or.inr ⟨ha, ha ▸ hm, ha ▸ hq⟩)
      · exact Or.inr ⟨ha, hm, hq⟩

theorem mem_resolveFlows (mod : WiFiModule) (heap : Heap) (registry : List AccessPoint)
    (target : HardwareAddr) (f : flow) :
    f ∈ resolveFlows mod heap registry target ↔
      f.Ap ∈ registry ∧ f.Client ∈ f.Ap.Clients ∧ qualifies mod.deauthSkip heap target f.Ap f.Client := by
  simp [resolveFlows, mem_resolveAPs]

theorem resolveClients_congr (mod mod1 : WiFiModule) (h : mod.deauthSkip = mod1.deauthSkip)
    (heap : Heap) (target : HardwareAddr) (isBcast isAP : Bool) (ap : AccessPoint)
    (cs : List Ptr) (acc : List flow) :
    resolveClients mod heap target isBcast isAP ap cs acc =
      resolveClients mod1 heap target isBcast isAP ap cs acc := by
  induction cs generalizing acc with
  | nil => rfl
  | cons c rest ih => simp only [resolveClients, WiFiModule.skipDeauth, h, ih]

theorem resolveAPs_congr (mod mod1 : WiFiModule) (h : mod.deauthSkip = mod1.deauthSkip)
    (heap : Heap) (target : HardwareAddr) (isBcast : Bool) (aps : List AccessPoint)
    (acc : List flow) :
    resolveAPs mod heap target isBcast aps acc = resolveAPs mod1 heap target isBcast aps acc := by
  induction aps generalizing acc with
  | nil => rfl
  | cons ap rest ih => simp only [resolveAPs, ih, resolveClients_congr mod mod1 h]

theorem resolveFlows_congr (mod mod1 : WiFiModule) (h : mod.deauthSkip = mod1.deauthSkip)
    (heap : Heap) (registry : List AccessPoint) (target : HardwareAddr) :
    resolveFlows mod heap registry target = resolveFlows mod1 heap registry target :=
  resolveAPs_congr mod mod1 h heap target _ registry []

/-- The outcome of `startDeauthResolve` in terms of the flow list. -/
theorem startDeauthResolve_eq (heap : Heap) (registry : List AccessPoint) (mod : WiFiModule)
    (target : HardwareAddr) :
    startDeauthResolve heap registry mod target =
      if resolveFlows mod heap registry target = [] then
        if target = BroadcastHw then { err := none, mod := mod, worker := none }
        else { err := some (Error.unknownBSSID target), mod := mod, worker := none }
      else
        { err := none, mod := { mod with writes := mod.writes + 1 },
          worker := some (resolveFlows mod heap registry target) } := by
  unfold startDeauthResolve
  by_cases h : resolveFlows mod heap registry target = []
  · by_cases hb : target = BroadcastHw <;> simp [h, hb, IsBroadcastMac, bytesEqual]
  · have : (resolveFlows mod heap registry target).length ≠ 0 := by
      simpa [List.length_eq_zero] using h
    simp [h, this]

/-- The outcome of `startDeauth` once the skip list is read and parsed. -/
theorem startDeauth_parsed (env : Env) (heap : Heap) (registry : List AccessPoint)
    (mod : WiFiModule) (target : HardwareAddr) (s : String) (macs : List HardwareAddr)
    (hS : env.StringParam "wifi.deauth.skip" = Except.ok s)
    (hP : env.ParseMACs s = Except.ok macs) :
    mod.startDeauth env heap registry target =
      if env.Running mod.polls = true then
        startDeauthResolve heap registry
          { mod with deauthSkip := macs, polls := mod.polls + 1 } target
      else
        match env.Configure with
        | Except.error err =>
          { err := some err, mod := { mod with deauthSkip := macs, polls := mod.polls + 1 },
            worker := none }
        | Except.ok _ =>
          { startDeauthResolve heap registry
              { mod with deauthSkip := macs, polls := mod.polls + 1, handleOpen := true,
                         trace := mod.trace ++ [Event.activate] } target with
            mod := (startDeauthResolve heap registry
              { mod with deauthSkip := macs, polls := mod.polls + 1, handleOpen := true,
                         trace := mod.trace ++ [Event.activate] } target).mod.handleClose } := by
  unfold WiFiModule.startDeauth
  simp only [hS, hP, WiFiModule.Running]
  cases env.Running mod.polls <;> simp

/-- C1: the flow list of `startDeauth` contains the pair (ap, client) exactly
when ap is in the registry, client is a client of ap, the target is the
broadcast address or the address of ap or of client, and neither address is in
the skip list; so no flow has an AP or client address in the skip list; and the
list captured by the worker that `startDeauth` starts is this flow list, for
the skip list parsed by that call. -/
theorem startDeauth_resolution_iff (env : Env) (mod : WiFiModule) (heap : Heap)
    (registry : List AccessPoint) (target : HardwareAddr) :
    (∀ (ap : AccessPoint) (client : Ptr),
      ({ Ap := ap, Client := client } : flow) ∈ resolveFlows mod heap registry target ↔
        ap ∈ registry ∧ client ∈ ap.Clients ∧
          (target = BroadcastHw ∨ (deref heap ap.Station).HW = target ∨
            (deref heap client).HW = target) ∧
          (deref heap ap.Station).HW ∉ mod.deauthSkip ∧
          (deref heap client).HW ∉ mod.deauthSkip) ∧
    (∀ f ∈ resolveFlows mod heap registry target,
      (deref heap f.Ap.Station).HW ∉ mod.deauthSkip ∧
        (deref heap f.Client).HW ∉ mod.deauthSkip) ∧
    (match (mod.startDeauth env heap registry target).worker with
      | none => True
      | some toDeauth =>
        toDeauth = resolveFlows (mod.startDeauth env heap registry target).mod heap registry target)
    := by
  refine ⟨fun ap client => ?_, fun f hf => ?_, ?_⟩
  · rw [mem_resolveFlows]; rfl
  · exact ((mem_resolveFlows mod heap registry target f).1 hf).2.2.2
  · cases hS : env.StringParam "wifi.deauth.skip" with
    | error e => simp [WiFiModule.startDeauth, hS]
    | ok s =>
      cases hP : env.ParseMACs s with
      | error e => simp [WiFiModule.startDeauth, hS, hP]
      | ok macs =>
        rw [startDeauth_parsed env heap registry mod target s macs hS hP]
        cases hR : env.Running mod.polls
        · cases hC : env.Configure with
          | error e => simp
          | ok u =>
            simp only [Bool.false_eq_true, if_false, startDeauthResolve_eq]
            split_ifs <;> simp [WiFiModule.handleClose]
            exact resolveFlows_congr _ _ (by rfl) heap registry target
        · simp only [if_true, startDeauthResolve_eq]
          split_ifs <;> simp
          exact resolveFlows_congr _ _ (by rfl) heap registry target

/-! ## The outcome of `startDeauth` -/

theorem injected_append (t1 t2 : List Event) : injected (t1 ++ t2) = injected t1 ++ injected t2 := by
  induction t1 with
  | nil => rfl
  | cons e rest ih => cases e <;> simp [injected, ih]

theorem resolveFlows_eq_nil_iff (mod : WiFiModule) (heap : Heap) (registry : List AccessPoint)
    (target : HardwareAddr) :
    resolveFlows mod heap registry target = [] ↔
      ∀ ap ∈ registry, ∀ client ∈ ap.Clients, ¬ qualifies mod.deauthSkip heap target ap client := by
  rw [List.eq_nil_iff_forall_not_mem]
  constructor
  · intro h ap hap client hc hq
    exact h { Ap := ap, Client := client }
      ((mem_resolveFlows mod heap registry target _).2 ⟨hap, hc, hq⟩)
  · intro h f hf
    have := (mem_resolveFlows mod heap registry target f).1 hf
    exact h f.Ap this.1 f.Client this.2.1 this.2.2

/-- C2 fails as stated: with the module not running and `Configure` failing,
`startDeauth` returns the error of `Configure`, for the broadcast target on an
empty registry (no pair qualifies) and for the broadcast target on the
AccessPoint of `heapA` (both pairs qualify) alike. -/
theorem startDeauth_configure_counterexample :
    resolveFlows mod0 [] [] BroadcastHw = [] ∧
      (mod0.startDeauth envNoHandle [] [] BroadcastHw).err
        = some (Error.ext "cannot open interface") ∧
      resolveFlows mod0 heapA [apA] BroadcastHw = [flowA1, flowA2] ∧
      (mod0.startDeauth envNoHandle heapA [apA] BroadcastHw).err
        = some (Error.ext "cannot open interface") := by
  refine ⟨?_, ?_, ?_, ?_⟩ <;> decide

/-- C2, amended: once the skip list is parsed to `macs`, `startDeauth` on a
registry in which no pair qualifies starts no worker, leaves the in-flight
counter alone and injects no frame, and, the handle being available (the module
runs, or `Configure` succeeds), returns no error for the broadcast target and
the unknown-BSSID error for any other target; when some pair qualifies and the
handle is available it returns no error and starts a worker; when the module is
not running and `Configure` fails, it returns the error of `Configure`, starts
no worker and touches neither the counter nor the radio. -/
theorem startDeauth_empty_outcome (env : Env) (heap : Heap) (registry : List AccessPoint)
    (mod : WiFiModule) (target : HardwareAddr) (s : String) (macs : List HardwareAddr)
    (hS : env.StringParam "wifi.deauth.skip" = Except.ok s)
    (hP : env.ParseMACs s = Except.ok macs) :
    ((∀ ap ∈ registry, ∀ client ∈ ap.Clients, ¬ qualifies macs heap target ap client) →
      (mod.startDeauth env heap registry target).worker = none ∧
      (mod.startDeauth env heap registry target).mod.writes = mod.writes ∧
      injected (mod.startDeauth env heap registry target).mod.trace = injected mod.trace ∧
      (env.Running mod.polls = true ∨ env.Configure = Except.ok () →
        (target = BroadcastHw → (mod.startDeauth env heap registry target).err = none) ∧
        (target ≠ BroadcastHw →
          (mod.startDeauth env heap registry target).err = some (Error.unknownBSSID target)))) ∧
    ((∃ ap ∈ registry, ∃ client ∈ ap.Clients, qualifies macs heap target ap client) →
      env.Running mod.polls = true ∨ env.Configure = Except.ok () →
      (mod.startDeauth env heap registry target).err = none ∧
      ∃ toDeauth, toDeauth ≠ [] ∧
        (mod.startDeauth env heap registry target).worker = some toDeauth) ∧
    (∀ e, env.Running mod.polls = false → env.Configure = Except.error e →
      (mod.startDeauth env heap registry target).err = some e ∧
      (mod.startDeauth env heap registry target).worker = none ∧
      (mod.startDeauth env heap registry target).mod.writes = mod.writes ∧
      (mod.startDeauth env heap registry target).mod.trace = mod.trace) := by
  rw [startDeauth_parsed env heap registry mod target s macs hS hP]
  refine ⟨?_, ?_, ?_⟩
  · intro hnone
    cases hR : env.Running mod.polls
    · have he : resolveFlows
          { mod with deauthSkip := macs, polls := mod.polls + 1, handleOpen := true,
                     trace := mod.trace ++ [Event.activate] } heap registry target = [] :=
        (resolveFlows_eq_nil_iff _ heap registry target).2 hnone
      cases hC : env.Configure with
      | error e => simp
      | ok u =>
        simp only [Bool.false_eq_true, if_false, startDeauthResolve_eq, he, if_true]
        by_cases hb : target = BroadcastHw <;>
          simp [hb, WiFiModule.handleClose, injected_append, injected]
    · have he : resolveFlows { mod with deauthSkip := macs, polls := mod.polls + 1 }
          heap registry target = [] :=
        (resolveFlows_eq_nil_iff _ heap registry target).2 hnone
      simp only [if_true, startDeauthResolve_eq, he]
      by_cases hb : target = BroadcastHw <;> simp [hb]
  · rintro ⟨ap, hap, client, hc, hq⟩ hH
    cases hR : env.Running mod.polls
    · have hC : env.Configure = Except.ok () := by
        rcases hH with h | h
        · rw [hR] at h; cases h
        · exact h
      have he : resolveFlows
          { mod with deauthSkip := macs, polls := mod.polls + 1, handleOpen := true,
                     trace := mod.trace ++ [Event.activate] } heap registry target ≠ [] :=
        fun h => (resolveFlows_eq_nil_iff _ heap registry target).1 h ap hap client hc hq
      simp [hC, startDeauthResolve_eq, he]
    · have he : resolveFlows { mod with deauthSkip := macs, polls := mod.polls + 1 }
          heap registry target ≠ [] :=
        fun h => (resolveFlows_eq_nil_iff _ heap registry target).1 h ap hap client hc hq
      simp [startDeauthResolve_eq, he]
  · intro e hR hC
    simp [hR, hC]

/-- C2, at a concrete input: the AccessPoint of `heapA` and a target that is
neither the broadcast address nor one of the three stations. -/
theorem startDeauth_empty_outcome_witness :
    (mod0.startDeauth envOk heapA [apA] [2, 0, 0, 0, 0, 9]).err
        = some (Error.unknownBSSID [2, 0, 0, 0, 0, 9]) ∧
      (mod0.startDeauth envOk heapA [apA] [2, 0, 0, 0, 0, 9]).worker = none :=
  have h := (startDeauth_empty_outcome envOk heapA [apA] mod0 [2, 0, 0, 0, 0, 9] "" []
    rfl rfl).1 (by decide)
  ⟨(h.2.2.2 (Or.inl rfl)).2 (by decide), h.1⟩

/-- C10: when the skip-list parameter cannot be read, or its value does not
parse, `startDeauth` returns that error and leaves the module as it was: the
stored skip list is unchanged, the handle is not activated, no radio event
happens and no worker is started. -/
theorem startDeauth_config_error (env : Env) (heap : Heap) (registry : List AccessPoint)
    (mod : WiFiModule) (target : HardwareAddr) (e : Error)
    (h : env.StringParam "wifi.deauth.skip" = Except.error e ∨
      ∃ s, env.StringParam "wifi.deauth.skip" = Except.ok s ∧ env.ParseMACs s = Except.error e) :
    (mod.startDeauth env heap registry target).err = some e ∧
      (mod.startDeauth env heap registry target).worker = none ∧
      (mod.startDeauth env heap registry target).mod = mod ∧
      (mod.startDeauth env heap registry target).mod.deauthSkip = mod.deauthSkip ∧
      (mod.startDeauth env heap registry target).mod.handleOpen = mod.handleOpen ∧
      (mod.startDeauth env heap registry target).mod.writes = mod.writes ∧
      (mod.startDeauth env heap registry target).mod.trace = mod.trace := by
  rcases h with h | ⟨s, hS, hP⟩
  · simp [WiFiModule.startDeauth, h]
  · simp [WiFiModule.startDeauth, hS, hP]

/-- C10, at a concrete input: the parameter store has no skip-list entry. -/
theorem startDeauth_config_error_witness :
    envNoParam.StringParam "wifi.deauth.skip" = Except.error (Error.ext "no such parameter") ∧
      (mod0.startDeauth envNoParam heapA [apA] BroadcastHw).err
        = some (Error.ext "no such parameter") ∧
      (mod0.startDeauth envNoParam heapA [apA] BroadcastHw).mod = mod0 :=
  have h := startDeauth_config_error envNoParam heapA [apA] mod0 BroadcastHw
    (Error.ext "no such parameter") (Or.inl rfl)
  ⟨rfl, h.1, h.2.2.1⟩

/-! ## The client registry of an AccessPoint -/

theorem mapGet_append_of_none (m : List (String × Ptr)) (k : String) (v : Ptr)
    (h : mapGet m k = none) : mapGet (m ++ [(k, v)]) k = some v := by
  induction m with
  | nil => simp [mapGet, List.lookup]
  | cons kv rest ih =>
    obtain ⟨k1, v1⟩ := kv
    unfold mapGet at h ih ⊢
    by_cases hk : k = k1
    · subst hk
      simp [List.lookup] at h
    · have hb : (k == k1) = false := by simpa using hk
      simp only [List.cons_append, List.lookup, hb] at h ⊢
      exact ih h

theorem mapGet_mapSet_of_none (m : List (String × Ptr)) (k : String) (v : Ptr)
    (h : mapGet m k = none) : mapGet (mapSet m k v) k = some v := by
  have h1 : m.lookup k = none := h
  simp only [mapSet, h1]
  exact mapGet_append_of_none m k v h

theorem mapSet_length_of_none (m : List (String × Ptr)) (k : String) (v : Ptr)
    (h : mapGet m k = none) : (mapSet m k v).length = m.length + 1 := by
  have h1 : m.lookup k = none := h
  simp [mapSet, h1]

/-- C3: two calls of `AddClientIfNew` in a row with the same address (any
frequencies, signals and times) return the same station pointer, which is the
one stored under the normalized address after the first call; the second call
returns isNew = false and leaves the client map, hence the client count, as
the first call left it; the first call returns isNew = true exactly when the
address was not yet a client. -/
theorem AddClientIfNew_twice (net : NetEnv) (now1 now2 : Nat) (ap : AccessPoint) (heap : Heap)
    (a : String) (f1 r1 f2 r2 : Int) :
    ((ap.AddClientIfNew net now1 heap a f1 r1).2.1.AddClientIfNew net now2
        (ap.AddClientIfNew net now1 heap a f1 r1).2.2 a f2 r2).1.1
      = (ap.AddClientIfNew net now1 heap a f1 r1).1.1 ∧
    ((ap.AddClientIfNew net now1 heap a f1 r1).2.1.AddClientIfNew net now2
        (ap.AddClientIfNew net now1 heap a f1 r1).2.2 a f2 r2).1.2 = false ∧
    (ap.AddClientIfNew net now1 heap a f1 r1).2.1.Get net a
      = (some (ap.AddClientIfNew net now1 heap a f1 r1).1.1, true) ∧
    ((ap.AddClientIfNew net now1 heap a f1 r1).2.1.AddClientIfNew net now2
        (ap.AddClientIfNew net now1 heap a f1 r1).2.2 a f2 r2).2.1
      = (ap.AddClientIfNew net now1 heap a f1 r1).2.1 ∧
    ((ap.AddClientIfNew net now1 heap a f1 r1).2.1.AddClientIfNew net now2
        (ap.AddClientIfNew net now1 heap a f1 r1).2.2 a f2 r2).2.1.NumClients
      = (ap.AddClientIfNew net now1 heap a f1 r1).2.1.NumClients ∧
    ((ap.AddClientIfNew net now1 heap a f1 r1).1.2 = true ↔ (ap.Get net a).2 = false) := by
  cases h : mapGet ap.clients (net.NormalizeMac a) with
  | some s =>
    have e1 : ap.AddClientIfNew net now1 heap a f1 r1 =
        ((s, false), ap,
          if GetOr ap.aliases (net.NormalizeMac a) "" != "" then
            update (update (update (update heap s (fun st => { st with Frequency := f1 })) s
              (fun st => { st with RSSI := r1 })) s (fun st => { st with LastSeen := now1 })) s
              (fun st => { st with Alias := GetOr ap.aliases (net.NormalizeMac a) "" })
          else
            update (update (update heap s (fun st => { st with Frequency := f1 })) s
              (fun st => { st with RSSI := r1 })) s (fun st => { st with LastSeen := now1 })) := by
      simp only [AccessPoint.AddClientIfNew, h]
    rw [e1]
    simp only [AccessPoint.AddClientIfNew, AccessPoint.Get, h]
    simp
  | none =>
    have e1 : ap.AddClientIfNew net now1 heap a f1 r1 =
        ((heap.length, true),
          { ap with clients := mapSet ap.clients (net.NormalizeMac a) heap.length },
          update (heap ++ [net.NewStation "" (net.NormalizeMac a) f1 r1]) heap.length
            (fun st => { st with Alias := GetOr ap.aliases (net.NormalizeMac a) "" })) := by
      simp only [AccessPoint.AddClientIfNew, h, alloc]
    rw [e1]
    have h2 := mapGet_mapSet_of_none ap.clients (net.NormalizeMac a) heap.length h
    simp only [AccessPoint.AddClientIfNew, AccessPoint.Get, h2, h]
    simp

/-! ## The transmission routine -/

theorem injectPacket_trace (env : Env) (mod : WiFiModule) (data : List Nat) :
    (mod.injectPacket env data).trace = mod.trace ++ [Event.inject data] := by
  unfold WiFiModule.injectPacket
  dsimp only
  split_ifs <;> rfl

theorem injectPacket_polls (env : Env) (mod : WiFiModule) (data : List Nat) :
    (mod.injectPacket env data).polls = mod.polls := by
  unfold WiFiModule.injectPacket
  dsimp only
  split_ifs <;> rfl

/-- The whole loop of `sendDeauthPacket`: each sequence number reached while
the flag reads true contributes its `seqFrames`, and nothing follows the first
poll that reads false. -/
theorem sendDeauthLoop_trace (env : Env) (ap client : HardwareAddr) (n seq : Nat)
    (mod : WiFiModule) :
    (WiFiModule.sendDeauthLoop env ap client n seq mod).trace =
      mod.trace ++ ((List.range' seq (pollsTrue env n mod.polls)).flatMap
        (seqFrames env ap client)).map Event.inject := by
  induction n generalizing seq mod with
  | zero => simp [WiFiModule.sendDeauthLoop, pollsTrue]
  | succ n ih =>
    cases hr : env.Running mod.polls
    · simp [WiFiModule.sendDeauthLoop, WiFiModule.Running, pollsTrue, hr]
    · simp only [WiFiModule.sendDeauthLoop, WiFiModule.Running, pollsTrue, hr, Bool.not_true,
        Bool.false_eq_true, if_false, if_true, List.range'_succ, List.flatMap_cons,
        List.map_append]
      cases h1 : env.NewDot11Deauth ap client ap seq with
      | error e => simp [ih, seqFrames, h1]
      | ok p1 =>
        cases h2 : env.NewDot11Deauth client ap ap seq with
        | error e => simp [ih, seqFrames, h1, h2, injectPacket_trace, injectPacket_polls]
        | ok p2 => simp [ih, seqFrames, h1, h2, injectPacket_trace, injectPacket_polls]

theorem pollsTrue_of_running (env : Env) (hrun : ∀ k, env.Running k = true) (n p : Nat) :
    pollsTrue env n p = n := by
  induction n generalizing p with
  | zero => rfl
  | succ n ih => simp [pollsTrue, hrun, ih]

theorem sendDeauthPacket_trace (env : Env) (mod : WiFiModule) (ap client : HardwareAddr) :
    (mod.sendDeauthPacket env ap client).trace =
      mod.trace ++ ((List.range (pollsTrue env (uint16 mod.deauthPackets) mod.polls)).flatMap
        (seqFrames env ap client)).map Event.inject := by
  rw [List.range_eq_range']
  exact sendDeauthLoop_trace env ap client _ 0 mod

theorem injected_map_inject (frames : List (List Nat)) :
    injected (frames.map Event.inject) = frames := by
  induction frames with
  | nil => rfl
  | cons d rest ih => simp [injected, ih]

theorem uint16_of_range (N : Int) (h0 : 0 ≤ N) (h1 : N < 65536) : (uint16 N : Int) = N := by
  unfold uint16
  rw [Int.emod_eq_of_lt h0 h1]
  exact Int.toNat_of_nonneg h0

/-- C6 fails as stated: with 65536 configured packets, the flag always true
and every construction succeeding, `sendDeauthPacket` injects no frame at all
(`uint16(65536)` is 0), not 2 * 65536. -/
theorem sendDeauthPacket_count_counterexample :
    (∀ k, envOk.Running k = true) ∧
      (∀ a1 a2 a3 seq, envOk.NewDot11Deauth a1 a2 a3 seq = Except.ok (a1 ++ a2 ++ a3 ++ [seq])) ∧
      injected (({ mod0 with deauthPackets := 65536 }).sendDeauthPacket envOk
        [2, 0, 0, 0, 0, 1] [2, 0, 0, 0, 0, 2]).trace = [] ∧
      (injected (({ mod0 with deauthPackets := 65536 }).sendDeauthPacket envOk
        [2, 0, 0, 0, 0, 1] [2, 0, 0, 0, 0, 2]).trace).length ≠ 2 * 65536 := by
  refine ⟨fun _ => rfl, fun _ _ _ _ => rfl, ?_, ?_⟩
  · rfl
  · have h : injected (({ mod0 with deauthPackets := 65536 }).sendDeauthPacket envOk
        [2, 0, 0, 0, 0, 1] [2, 0, 0, 0, 0, 2]).trace = [] := rfl
    rw [h]
    decide

/-- C6, amended: when the flag always reads true and every construction
succeeds, `sendDeauthPacket` injects exactly two frames for each sequence
number below `uint16(deauthPackets)`, in increasing order, AP-to-client frame
first; that is 2N frames whenever 0 <= N < 65536. -/
theorem sendDeauthPacket_frames (env : Env) (mod : WiFiModule) (ap client : HardwareAddr)
    (build : HardwareAddr → HardwareAddr → HardwareAddr → Nat → List Nat)
    (hrun : ∀ k, env.Running k = true)
    (hbuild : ∀ a1 a2 a3 seq, env.NewDot11Deauth a1 a2 a3 seq = Except.ok (build a1 a2 a3 seq)) :
    injected (mod.sendDeauthPacket env ap client).trace =
        injected mod.trace ++ (List.range (uint16 mod.deauthPackets)).flatMap
          (fun seq => [build ap client ap seq, build client ap ap seq]) ∧
      (0 ≤ mod.deauthPackets ∧ mod.deauthPackets < 65536 →
        ((injected (mod.sendDeauthPacket env ap client).trace).length : Int) =
          (injected mod.trace).length + 2 * mod.deauthPackets) := by
  have hseq : seqFrames env ap client =
      fun seq => [build ap client ap seq, build client ap ap seq] := by
    funext seq
    simp [seqFrames, hbuild]
  have hmain : injected (mod.sendDeauthPacket env ap client).trace =
      injected mod.trace ++ (List.range (uint16 mod.deauthPackets)).flatMap
        (fun seq => [build ap client ap seq, build client ap ap seq]) := by
    rw [sendDeauthPacket_trace, pollsTrue_of_running env hrun, injected_append,
      injected_map_inject, hseq]
  refine ⟨hmain, fun h => ?_⟩
  have hlen : ∀ n : Nat, ((List.range n).flatMap
      (fun seq => [build ap client ap seq, build client ap ap seq])).length = 2 * n := by
    intro n
    induction n with
    | zero => rfl
    | succ n ih =>
      rw [List.range_succ, List.flatMap_append, List.length_append, ih]
      simp
      omega
  rw [hmain, List.length_append, hlen]
  have hu := uint16_of_range mod.deauthPackets h.1 h.2
  push_cast
  rw [hu]

/-- C6, amended, at a concrete input: four packets per flow give eight
frames. -/
theorem sendDeauthPacket_frames_witness :
    (injected (mod0.sendDeauthPacket envOk [2, 0, 0, 0, 0, 1] [2, 0, 0, 0, 0, 2]).trace).length
      = 8 := by
  have h := (sendDeauthPacket_frames envOk mod0 [2, 0, 0, 0, 0, 1] [2, 0, 0, 0, 0, 2]
    (fun a1 a2 a3 seq => a1 ++ a2 ++ a3 ++ [seq]) (fun _ => rfl) (fun _ _ _ _ => rfl)).1
  rw [h]
  rfl

/-- C7 fails as stated: when the construction of the AP-to-client frame of a
sequence number fails and that of the client-to-AP frame would succeed, the
client-to-AP frame is not injected either. -/
theorem sendDeauthPacket_skip_counterexample :
    envFirstFails.NewDot11Deauth [2, 0, 0, 0, 0, 1] [2, 0, 0, 0, 0, 2] [2, 0, 0, 0, 0, 1] 0
        = Except.error (Error.ext "cannot serialize") ∧
      envFirstFails.NewDot11Deauth [2, 0, 0, 0, 0, 2] [2, 0, 0, 0, 0, 1] [2, 0, 0, 0, 0, 1] 0
        = Except.ok [2, 0, 0, 0, 0, 2, 2, 0, 0, 0, 0, 1, 2, 0, 0, 0, 0, 1, 0] ∧
      injected (({ mod0 with deauthPackets := 1 }).sendDeauthPacket envFirstFails
        [2, 0, 0, 0, 0, 1] [2, 0, 0, 0, 0, 2]).trace = [] := by
  refine ⟨rfl, rfl, ?_⟩
  rfl

/-- C7, amended: in `sendDeauthPacket`, every sequence number reached while the
flag reads true is handled on its own and the loop goes on with the next one:
if the construction of its first (AP-to-client) frame fails, no frame of that
sequence number is injected; if only the construction of its second frame
fails, the first frame alone is injected; otherwise both are. -/
theorem sendDeauthPacket_construction_failure (env : Env) (mod : WiFiModule)
    (ap client : HardwareAddr) :
    injected (mod.sendDeauthPacket env ap client).trace =
        injected mod.trace ++
          (List.range (pollsTrue env (uint16 mod.deauthPackets) mod.polls)).flatMap
            (seqFrames env ap client) ∧
      (∀ seq e, env.NewDot11Deauth ap client ap seq = Except.error e →
        seqFrames env ap client seq = []) ∧
      (∀ seq p1 e, env.NewDot11Deauth ap client ap seq = Except.ok p1 →
        env.NewDot11Deauth client ap ap seq = Except.error e →
        seqFrames env ap client seq = [p1]) ∧
      (∀ seq p1 p2, env.NewDot11Deauth ap client ap seq = Except.ok p1 →
        env.NewDot11Deauth client ap ap seq = Except.ok p2 →
        seqFrames env ap client seq = [p1, p2]) := by
  refine ⟨?_, ?_, ?_, ?_⟩
  · rw [sendDeauthPacket_trace, injected_append, injected_map_inject]
  · intro seq e h
    simp [seqFrames, h]
  · intro seq p1 e h1 h2
    simp [seqFrames, h1, h2]
  · intro seq p1 p2 h1 h2
    simp [seqFrames, h1, h2]

/-! ## The worker -/

theorem deauthFlow_not_running (env : Env) (heap : Heap) (mod : WiFiModule) (f : flow)
    (h : env.Running mod.polls = false) :
    mod.deauthFlow env heap f = { mod with polls := mod.polls + 1 } := by
  simp [WiFiModule.deauthFlow, WiFiModule.Running, h]

theorem deauthLoop_all_cancelled (env : Env) (heap : Heap) (flows : List flow) (mod : WiFiModule)
    (h : ∀ k, mod.polls ≤ k → env.Running k = false) :
    (WiFiModule.deauthLoop env heap flows mod).trace = mod.trace := by
  induction flows generalizing mod with
  | nil => rfl
  | cons f rest ih =>
    rw [WiFiModule.deauthLoop, deauthFlow_not_running env heap mod f (h _ (Nat.le_refl _))]
    exact ih _ (fun k hk => h k (Nat.le_of_succ_le hk))

/-- C8 fails as stated: the check before the first flow finds the attack
cancelled, the flag reads true again at the next poll, and the second flow of
the sorted list gets its channel switch and its two frames. -/
theorem deauthWorker_resume_counterexample :
    envRestart.Running 0 = false ∧
      schedule envRestart heapA [flowA1, flowA2] = [flowA1, flowA2] ∧
      (({ mod0 with deauthPackets := 1 }).deauthWorker envRestart heapA [flowA1, flowA2]).trace =
        [Event.hop 6,
          Event.inject [2, 0, 0, 0, 0, 1, 2, 0, 0, 0, 0, 3, 2, 0, 0, 0, 0, 1, 0],
          Event.inject [2, 0, 0, 0, 0, 3, 2, 0, 0, 0, 0, 1, 2, 0, 0, 0, 0, 1, 0]] := by
  refine ⟨rfl, ?_, ?_⟩
  · decide
  · decide

/-- C8, amended: when the check made before a flow finds the attack
cancelled, no frame is injected and no channel switch is made for that flow;
every later flow is checked again, and if the flag reads false from that check
on, nothing is injected or switched for any later flow either. -/
theorem deauthLoop_cancelled (env : Env) (heap : Heap) (mod : WiFiModule) (f : flow)
    (rest : List flow) (h : env.Running mod.polls = false) :
    (mod.deauthFlow env heap f).trace = mod.trace ∧
      ((∀ k, mod.polls ≤ k → env.Running k = false) →
        (WiFiModule.deauthLoop env heap (f :: rest) mod).trace = mod.trace) := by
  refine ⟨?_, fun hall => deauthLoop_all_cancelled env heap (f :: rest) mod hall⟩
  rw [deauthFlow_not_running env heap mod f h]

/-- C8, amended, at a concrete input: the flag reads false at every poll. -/
theorem deauthLoop_cancelled_witness :
    envStopped.Running mod0.polls = false ∧
      (mod0.deauthFlow envStopped heapA flowA1).trace = [] ∧
      (WiFiModule.deauthLoop envStopped heapA [flowA1, flowA2] mod0).trace = [] :=
  have h := deauthLoop_cancelled envStopped heapA mod0 flowA1 [flowA2] rfl
  ⟨rfl, h.1, h.2 (fun _ _ => rfl)⟩

theorem isDeauthSilent_snd (env : Env) (mod : WiFiModule) :
    (mod.isDeauthSilent env).2.trace = mod.trace ∧
      (mod.isDeauthSilent env).2.polls = mod.polls ∧
      (mod.isDeauthSilent env).2.deauthPackets = mod.deauthPackets ∧
      (mod.isDeauthSilent env).2.reads = mod.reads + 1 ∧
      (mod.isDeauthSilent env).2.deauthOpen = mod.deauthOpen ∧
      (mod.isDeauthSilent env).2.deauthAcquired = mod.deauthAcquired := by
  unfold WiFiModule.isDeauthSilent WiFiModule.BoolParam
  cases env.BoolParam "wifi.deauth.silent" mod.reads <;> simp

theorem doDeauthOpen_fst (env : Env) (mod : WiFiModule) :
    (mod.doDeauthOpen env).1 = toggle (env.BoolParam "wifi.deauth.open" mod.reads) mod.deauthOpen := by
  unfold WiFiModule.doDeauthOpen WiFiModule.BoolParam toggle
  cases env.BoolParam "wifi.deauth.open" mod.reads <;> simp

theorem doDeauthOpen_snd (env : Env) (mod : WiFiModule) :
    (mod.doDeauthOpen env).2.trace = mod.trace ∧
      (mod.doDeauthOpen env).2.polls = mod.polls ∧
      (mod.doDeauthOpen env).2.deauthPackets = mod.deauthPackets ∧
      (mod.doDeauthOpen env).2.reads = mod.reads + 1 ∧
      (mod.doDeauthOpen env).2.deauthAcquired = mod.deauthAcquired := by
  unfold WiFiModule.doDeauthOpen WiFiModule.BoolParam
  cases env.BoolParam "wifi.deauth.open" mod.reads <;> simp

theorem doDeauthAcquired_fst (env : Env) (mod : WiFiModule) :
    (mod.doDeauthAcquired env).1 =
      toggle (env.BoolParam "wifi.deauth.acquired" mod.reads) mod.deauthAcquired := by
  unfold WiFiModule.doDeauthAcquired WiFiModule.BoolParam toggle
  cases env.BoolParam "wifi.deauth.acquired" mod.reads <;> simp

theorem doDeauthAcquired_snd (env : Env) (mod : WiFiModule) :
    (mod.doDeauthAcquired env).2.trace = mod.trace ∧
      (mod.doDeauthAcquired env).2.polls = mod.polls ∧
      (mod.doDeauthAcquired env).2.deauthPackets = mod.deauthPackets := by
  unfold WiFiModule.doDeauthAcquired WiFiModule.BoolParam
  cases env.BoolParam "wifi.deauth.acquired" mod.reads <;> simp

theorem policy_send (env : Env) (heap : Heap) (mod X : WiFiModule) (f : flow)
    (ht : X.trace = mod.trace) (hp : X.deauthPackets = mod.deauthPackets)
    (hq : X.polls = mod.polls + 1) :
    ∃ m : WiFiModule,
      m.trace = mod.trace ++ [Event.hop (f.channel heap)] ∧
      m.deauthPackets = mod.deauthPackets ∧ m.polls = mod.polls + 1 ∧
      X.onChannel (f.channel heap)
          (fun m => m.sendDeauthPacket env (deref heap f.Ap.Station).HW (deref heap f.Client).HW) =
        m.sendDeauthPacket env (deref heap f.Ap.Station).HW (deref heap f.Client).HW :=
  ⟨{ X with trace := X.trace ++ [Event.hop (f.channel heap)] }, by simp [ht], hp, hq, rfl⟩

/-- The body of the worker's loop when the check finds the attack running, with
the three parameter reads named. -/
theorem deauthFlow_running (env : Env) (heap : Heap) (mod : WiFiModule) (f : flow)
    (hrun : env.Running mod.polls = true) :
    mod.deauthFlow env heap f =
      if env.IsOpen (deref heap f.Ap.Station) = true then
        if ((({ mod with polls := mod.polls + 1 } : WiFiModule).isDeauthSilent env).2.doDeauthOpen
            env).1 = true then
          if f.Ap.HasKeyMaterial = true then
            if ((((({ mod with polls := mod.polls + 1 } : WiFiModule).isDeauthSilent
                env).2.doDeauthOpen env).2).doDeauthAcquired env).1 = true then
              ((((({ mod with polls := mod.polls + 1 } : WiFiModule).isDeauthSilent
                env).2.doDeauthOpen env).2).doDeauthAcquired env).2.onChannel (f.channel heap)
                (fun m => m.sendDeauthPacket env (deref heap f.Ap.Station).HW
                  (deref heap f.Client).HW)
            else
              ((((({ mod with polls := mod.polls + 1 } : WiFiModule).isDeauthSilent
                env).2.doDeauthOpen env).2).doDeauthAcquired env).2
          else
            (((({ mod with polls := mod.polls + 1 } : WiFiModule).isDeauthSilent
              env).2.doDeauthOpen env).2).onChannel (f.channel heap)
              (fun m => m.sendDeauthPacket env (deref heap f.Ap.Station).HW
                (deref heap f.Client).HW)
        else
          ((({ mod with polls := mod.polls + 1 } : WiFiModule).isDeauthSilent env).2.doDeauthOpen
            env).2
      else
        if f.Ap.HasKeyMaterial = true then
          if (((({ mod with polls := mod.polls + 1 } : WiFiModule).isDeauthSilent
              env).2).doDeauthAcquired env).1 = true then
            (((({ mod with polls := mod.polls + 1 } : WiFiModule).isDeauthSilent
              env).2).doDeauthAcquired env).2.onChannel (f.channel heap)
              (fun m => m.sendDeauthPacket env (deref heap f.Ap.Station).HW
                (deref heap f.Client).HW)
          else
            (((({ mod with polls := mod.polls + 1 } : WiFiModule).isDeauthSilent
              env).2).doDeauthAcquired env).2
        else
          ((({ mod with polls := mod.polls + 1 } : WiFiModule).isDeauthSilent env).2).onChannel
            (f.channel heap)
            (fun m => m.sendDeauthPacket env (deref heap f.Ap.Station).HW
              (deref heap f.Client).HW) := by
  unfold WiFiModule.deauthFlow
  simp only [WiFiModule.Running, hrun, if_true, flow.channel]
  cases env.IsOpen (deref heap f.Ap.Station) <;> cases f.Ap.HasKeyMaterial <;>
    simp only [Bool.false_eq_true, if_false, if_true]
  · cases (((({ mod with polls := mod.polls + 1 } : WiFiModule).isDeauthSilent
        env).2).doDeauthAcquired env).1 <;> simp
  · cases ((({ mod with polls := mod.polls + 1 } : WiFiModule).isDeauthSilent env).2.doDeauthOpen
        env).1 <;> simp
  · cases ((({ mod with polls := mod.polls + 1 } : WiFiModule).isDeauthSilent env).2.doDeauthOpen
        env).1 <;> simp
    cases ((((({ mod with polls := mod.polls + 1 } : WiFiModule).isDeauthSilent
        env).2.doDeauthOpen env).2).doDeauthAcquired env).1 <;> simp

/-- C9: for a flow whose check finds the attack running, the toggles read at
that moment decide (a failed read falls back on the cached value): if the AP is
open and attack-open-networks reads disabled, or the AP has key material and
attack-already-acquired reads disabled, the radio sees nothing for this flow;
otherwise the radio is switched to the AP's channel and `sendDeauthPacket`
runs with the AP address and the client address of this flow. -/
theorem deauthFlow_policy (env : Env) (heap : Heap) (mod : WiFiModule) (f : flow)
    (hrun : env.Running mod.polls = true) :
    ((env.IsOpen (deref heap f.Ap.Station) = true ∧
          toggle (env.BoolParam "wifi.deauth.open" (mod.reads + 1)) mod.deauthOpen = false) ∨
        (f.Ap.HasKeyMaterial = true ∧
          toggle (env.BoolParam "wifi.deauth.acquired"
            (mod.reads + (if env.IsOpen (deref heap f.Ap.Station) = true then 2 else 1)))
            mod.deauthAcquired = false) →
      (mod.deauthFlow env heap f).trace = mod.trace) ∧
    (¬ ((env.IsOpen (deref heap f.Ap.Station) = true ∧
          toggle (env.BoolParam "wifi.deauth.open" (mod.reads + 1)) mod.deauthOpen = false) ∨
        (f.Ap.HasKeyMaterial = true ∧
          toggle (env.BoolParam "wifi.deauth.acquired"
            (mod.reads + (if env.IsOpen (deref heap f.Ap.Station) = true then 2 else 1)))
            mod.deauthAcquired = false)) →
      ∃ m : WiFiModule,
        m.trace = mod.trace ++ [Event.hop (f.channel heap)] ∧
        m.deauthPackets = mod.deauthPackets ∧ m.polls = mod.polls + 1 ∧
        mod.deauthFlow env heap f =
          m.sendDeauthPacket env (deref heap f.Ap.Station).HW (deref heap f.Client).HW) := by
  have hs := isDeauthSilent_snd env { mod with polls := mod.polls + 1 }
  have ho := doDeauthOpen_snd env (({ mod with polls := mod.polls + 1 } : WiFiModule).isDeauthSilent env).2
  have hvo := doDeauthOpen_fst env
    (({ mod with polls := mod.polls + 1 } : WiFiModule).isDeauthSilent env).2
  have ha1 := doDeauthAcquired_snd env
    (({ mod with polls := mod.polls + 1 } : WiFiModule).isDeauthSilent env).2
  have hva1 := doDeauthAcquired_fst env
    (({ mod with polls := mod.polls + 1 } : WiFiModule).isDeauthSilent env).2
  have ha2 := doDeauthAcquired_snd env
    ((({ mod with polls := mod.polls + 1 } : WiFiModule).isDeauthSilent env).2.doDeauthOpen env).2
  have hva2 := doDeauthAcquired_fst env
    ((({ mod with polls := mod.polls + 1 } : WiFiModule).isDeauthSilent env).2.doDeauthOpen env).2
  simp only at hs
  obtain ⟨hs1, hs2, hs3, hs4, hs5, hs6⟩ := hs
  obtain ⟨ho1, ho2, ho3, ho4, ho5⟩ := ho
  obtain ⟨ha11, ha12, ha13⟩ := ha1
  obtain ⟨ha21, ha22, ha23⟩ := ha2
  rw [hs4, hs5] at hvo
  rw [hs4, hs6] at hva1
  rw [ho4, ho5, hs4, hs6] at hva2
  rw [deauthFlow_running env heap mod f hrun, hvo, hva1, hva2]
  cases hO : env.IsOpen (deref heap f.Ap.Station) <;>
    cases hK : f.Ap.HasKeyMaterial <;>
    simp only [Bool.false_eq_true, if_false, if_true, false_and, true_and, false_or, or_false,
      not_false_eq_true, forall_true_left, false_implies, true_implies, and_true, true_and,
      Bool.not_eq_false]
  · exact policy_send env heap mod _ f hs1 hs3 hs2
  · cases hA : toggle (env.BoolParam "wifi.deauth.acquired" (mod.reads + 1)) mod.deauthAcquired
    · simp [ha11, hs1]
    · simp only [Bool.true_eq_false, not_false_eq_true, forall_true_left, if_true, false_implies,
        true_and]
      exact policy_send env heap mod _ f (ha11.trans hs1) (ha13.trans hs3) (ha12.trans hs2)
  · cases hT : toggle (env.BoolParam "wifi.deauth.open" (mod.reads + 1)) mod.deauthOpen
    · simp [ho1, hs1]
    · simp only [Bool.true_eq_false, not_false_eq_true, forall_true_left, if_true, false_implies,
        true_and]
      exact policy_send env heap mod _ f (ho1.trans hs1) (ho3.trans hs3) (ho2.trans hs2)
  · cases hT : toggle (env.BoolParam "wifi.deauth.open" (mod.reads + 1)) mod.deauthOpen
    · simp [ho1, hs1]
    · cases hA : toggle (env.BoolParam "wifi.deauth.acquired" (mod.reads + 1 + 1))
          mod.deauthAcquired
      · simp [ha21, ho1, hs1, hA]
      · simp only [Bool.true_eq_false, not_false_eq_true, if_true, false_or, hA, false_implies,
          true_and, forall_true_left]
        exact policy_send env heap mod _ f ((ha21.trans ho1).trans hs1)
          ((ha23.trans ho3).trans hs3) ((ha22.trans ho2).trans hs2)

/-- C9, at a concrete input: the attack runs, the AP has key material and the
parameter store has the toggles disabled, so the radio sees nothing. -/
theorem deauthFlow_policy_witness :
    envNoPolicy.Running mod0.polls = true ∧
      (mod0.deauthFlow envNoPolicy heapA { Ap := apAcquired, Client := 1 }).trace = [] :=
  ⟨rfl, (deauthFlow_policy envNoPolicy heapA mod0 { Ap := apAcquired, Client := 1 } rfl).1
    (Or.inr ⟨rfl, rfl⟩)⟩

/-! ## Scheduling -/

theorem lessByChannel_strictWeak (heap : Heap) : StrictWeakOrder (lessByChannel heap) := by
  refine ⟨fun a => ?_, fun a b c hab hbc => ?_, fun a b c hab hbc => ?_⟩
  · simp [lessByChannel]
  · simp only [lessByChannel, decide_eq_true_eq] at *
    omega
  · simp only [lessByChannel, decide_eq_false_iff_not, not_lt] at *
    omega

/-- Insertion sort meets the contract of `sort.Slice`. -/
theorem insertionSort_contract :
    SortSliceContract (fun less l => List.insertionSort (fun a b => less b a = false) l) := by
  intro less hless l
  obtain ⟨hirr, htrans, hneg⟩ := hless
  refine ⟨List.perm_insertionSort _ l, ?_⟩
  haveI : IsTotal flow (fun a b => less b a = false) := by
    constructor
    intro a b
    cases hba : less b a
    · exact Or.inl rfl
    · cases hab : less a b
      · exact Or.inr rfl
      · have := htrans a b a hab hba
        rw [hirr a] at this
        cases this
  haveI : IsTrans flow (fun a b => less b a = false) := by
    constructor
    intro a b c hab hbc
    exact hneg c b a hbc hab
  exact List.sorted_insertionSort (fun a b => less b a = false) l

theorem envOk_contract : SortSliceContract envOk.sortSlice := insertionSort_contract

theorem schedule_perm (env : Env) (heap : Heap) (toDeauth : List flow)
    (hsort : SortSliceContract env.sortSlice) : (schedule env heap toDeauth).Perm toDeauth :=
  (hsort (lessByChannel heap) (lessByChannel_strictWeak heap) toDeauth).1

theorem schedule_pairwise (env : Env) (heap : Heap) (toDeauth : List flow)
    (hsort : SortSliceContract env.sortSlice) :
    (schedule env heap toDeauth).Pairwise (fun a b => a.channel heap ≤ b.channel heap) := by
  have h := (hsort (lessByChannel heap) (lessByChannel_strictWeak heap) toDeauth).2
  refine List.Pairwise.imp ?_ h
  intro a b hab
  simpa [lessByChannel, flow.channel] using hab

/-- C4: when `sort.Slice` keeps its documented contract, the sequence the worker
iterates has ascending channels: for every adjacent pair of positions i and
i + 1, the channel at i is at most the channel at i + 1. -/
theorem schedule_monotone (env : Env) (heap : Heap) (toDeauth : List flow)
    (hsort : SortSliceContract env.sortSlice) (i : Nat) (a b : flow)
    (ha : (schedule env heap toDeauth)[i]? = some a)
    (hb : (schedule env heap toDeauth)[i + 1]? = some b) :
    a.channel heap ≤ b.channel heap := by
  have h := schedule_pairwise env heap toDeauth hsort
  rw [List.pairwise_iff_getElem] at h
  obtain ⟨hi, rfl⟩ := List.getElem?_eq_some_iff.1 ha
  obtain ⟨hj, rfl⟩ := List.getElem?_eq_some_iff.1 hb
  exact h i (i + 1) hi hj (Nat.lt_succ_self i)

/-- C4, at a concrete input: the flows of `heapB`, resolved with the channel-6
AccessPoint first, are scheduled with the channel-1 flow before a channel-6
flow. -/
theorem schedule_monotone_witness :
    (schedule envOk heapB (resolveFlows mod0 heapB [apSix, apOne] BroadcastHw))[0]?
        = some { Ap := apOne, Client := 14 } ∧
      (schedule envOk heapB (resolveFlows mod0 heapB [apSix, apOne] BroadcastHw))[1]?
        = some { Ap := apSix, Client := 1 } ∧
      flow.channel heapB { Ap := apOne, Client := 14 }
        ≤ flow.channel heapB { Ap := apSix, Client := 1 } :=
  have h0 : (schedule envOk heapB (resolveFlows mod0 heapB [apSix, apOne] BroadcastHw))[0]?
      = some { Ap := apOne, Client := 14 } := by decide
  have h1 : (schedule envOk heapB (resolveFlows mod0 heapB [apSix, apOne] BroadcastHw))[1]?
      = some { Ap := apSix, Client := 1 } := by decide
  ⟨h0, h1, schedule_monotone envOk heapB _ envOk_contract 0 _ _ h0 h1⟩

/-- C5 fails as stated: with the library's `sort.Slice`, the thirteen flows
that `startDeauth` resolves from `heapB` for the broadcast target (twelve on
channel 6, then one on channel 1) are scheduled
with the channel-6 flows of clients 7 and 2 moved: client 7 comes before
clients 3 to 6 and client 1, and client 2 comes last, although all twelve have
the same channel and were resolved in the order 1, 2, ..., 12. -/
theorem schedule_unstable_counterexample :
    (mod0.startDeauth envGo heapB [apSix, apOne] BroadcastHw).worker
        = some (resolveFlows mod0 heapB [apSix, apOne] BroadcastHw) ∧
      (resolveFlows mod0 heapB [apSix, apOne] BroadcastHw).map (fun f => (f.Client, f.channel heapB))
        = [(1, 6), (2, 6), (3, 6), (4, 6), (5, 6), (6, 6), (7, 6), (8, 6), (9, 6), (10, 6),
            (11, 6), (12, 6), (14, 1)] ∧
      (schedule envGo heapB (resolveFlows mod0 heapB [apSix, apOne] BroadcastHw)).map
          (fun f => (f.Client, f.channel heapB))
        = [(14, 1), (7, 6), (3, 6), (4, 6), (5, 6), (6, 6), (1, 6), (8, 6), (9, 6), (10, 6),
            (11, 6), (12, 6), (2, 6)] := by
  refine ⟨?_, ?_, ?_⟩
  · decide
  · decide
  · decide

/-- C5, amended: the scheduling sort is `sort.Slice`, which is not stable.
When it keeps its documented contract, scheduling keeps, for every channel,
exactly the flows of that channel (as a multiset: their relative order is not
promised) in a sequence of ascending channels, so the flows of one channel are
contiguous; e.g. flows at channels 6, 6 and 11, in any order, give a schedule
with channels 6, 6, 11. -/
theorem schedule_groups (env : Env) (heap : Heap) (toDeauth : List flow)
    (hsort : SortSliceContract env.sortSlice) :
    (∀ c : Int, ((schedule env heap toDeauth).filter (fun f => decide (f.channel heap = c))).Perm
        (toDeauth.filter (fun f => decide (f.channel heap = c)))) ∧
      (schedule env heap toDeauth).Perm toDeauth ∧
      (schedule env heap toDeauth).Pairwise (fun a b => a.channel heap ≤ b.channel heap) ∧
      (∀ (i j k : Nat) (a b c : flow), i < j → j < k → (schedule env heap toDeauth)[i]? = some a →
        (schedule env heap toDeauth)[j]? = some b → (schedule env heap toDeauth)[k]? = some c →
        a.channel heap = c.channel heap → b.channel heap = a.channel heap) ∧
      ((toDeauth.map (flow.channel heap)).Perm [6, 6, 11] →
        (schedule env heap toDeauth).map (flow.channel heap) = [6, 6, 11]) := by
  have hperm := schedule_perm env heap toDeauth hsort
  have hpair := schedule_pairwise env heap toDeauth hsort
  refine ⟨fun c => hperm.filter _, hperm, hpair, ?_, ?_⟩
  · intro i j k a b c hij hjk ha hb hc hac
    have h := List.pairwise_iff_getElem.1 hpair
    obtain ⟨hi, rfl⟩ := List.getElem?_eq_some_iff.1 ha
    obtain ⟨hj, rfl⟩ := List.getElem?_eq_some_iff.1 hb
    obtain ⟨hk, rfl⟩ := List.getElem?_eq_some_iff.1 hc
    have h1 := h i j hi hj hij
    have h2 := h j k hj hk hjk
    omega
  · intro h
    have hp : ((schedule env heap toDeauth).map (flow.channel heap)).Perm [6, 6, 11] :=
      (hperm.map _).trans h
    have hs : ((schedule env heap toDeauth).map (flow.channel heap)).Sorted (· ≤ ·) := by
      rw [List.Sorted, List.pairwise_map]
      exact hpair
    exact List.eq_of_perm_of_sorted hp hs (by decide)

/-- C5, amended, at a concrete input: the thirteen flows of `heapB` under a
sorter that keeps the contract. -/
theorem schedule_groups_witness :
    ((schedule envOk heapB (resolveFlows mod0 heapB [apSix, apOne] BroadcastHw)).filter
          (fun f => decide (f.channel heapB = 6))).Perm
        ((resolveFlows mod0 heapB [apSix, apOne] BroadcastHw).filter
          (fun f => decide (f.channel heapB = 6))) :=
  (schedule_groups envOk heapB (resolveFlows mod0 heapB [apSix, apOne] BroadcastHw)
    envOk_contract).1 6

/-- The contract of `sort.Slice` alone does not give stability: insertion sort
of the reversed list keeps the contract and exchanges two flows of the same
channel. -/
theorem contract_allows_reordering :
    SortSliceContract (fun less l => List.insertionSort (fun a b => less b a = false) l.reverse) ∧
      List.insertionSort (fun a b => lessByChannel heapA b a = false) [flowA1, flowA2].reverse
        = [flowA2, flowA1] := by
  constructor
  · intro less hless l
    have h := insertionSort_contract less hless l.reverse
    exact ⟨h.1.trans (List.reverse_perm l), h.2⟩
  · decide

/-! ## Handshake scans and client removal -/

theorem numHandshakesLoop_eq (heap : Heap) (l : List (String × Ptr)) (sum : Nat) :
    numHandshakesLoop heap l sum =
      sum + l.countP (fun kv => (deref heap kv.2).HandshakeComplete) := by
  induction l generalizing sum with
  | nil => simp [numHandshakesLoop]
  | cons kv rest ih =>
    obtain ⟨k, c⟩ := kv
    cases hc : (deref heap c).HandshakeComplete
    · simp [numHandshakesLoop, hc, ih]
    · simp [numHandshakesLoop, hc, ih]
      omega

/-- C15: `NumHandshakes` returns the number of entries of the client map whose
station reports a complete handshake, `HasHandshakes` is true exactly when that
number is positive, and both calls leave the AccessPoint and the stations as
they were. -/
theorem NumHandshakes_count (ap : AccessPoint) (heap : Heap) :
    (ap.NumHandshakes heap).1 =
        ap.clients.countP (fun kv => (deref heap kv.2).HandshakeComplete) ∧
      ((ap.HasHandshakes heap).1 = true ↔
        0 < ap.clients.countP (fun kv => (deref heap kv.2).HandshakeComplete)) ∧
      ((ap.HasHandshakes heap).1 = true ↔
        ∃ c ∈ ap.Clients, (deref heap c).HandshakeComplete = true) ∧
      (ap.NumHandshakes heap).2 = (ap, heap) ∧
      (ap.HasHandshakes heap).2 = (ap, heap) := by
  have h1 : (ap.NumHandshakes heap).1 =
      ap.clients.countP (fun kv => (deref heap kv.2).HandshakeComplete) := by
    simp [AccessPoint.NumHandshakes, numHandshakesLoop_eq]
  refine ⟨h1, ?_, ?_, rfl, rfl⟩
  · simp only [AccessPoint.HasHandshakes, h1, decide_eq_true_eq]
  · simp only [AccessPoint.HasHandshakes, h1, decide_eq_true_eq, List.countP_pos_iff,
      AccessPoint.Clients, List.mem_map]
    constructor
    · rintro ⟨kv, hkv, hc⟩
      exact ⟨kv.2, ⟨kv, hkv, rfl⟩, hc⟩
    · rintro ⟨c, ⟨kv, hkv, rfl⟩, hc⟩
      exact ⟨kv, hkv, hc⟩

theorem hasPMKIDLoop_iff (heap : Heap) (l : List (String × Ptr)) :
    hasPMKIDLoop heap l = true ↔ ∃ kv ∈ l, (deref heap kv.2).HandshakePMKID = true := by
  induction l with
  | nil => simp [hasPMKIDLoop]
  | cons kv rest ih =>
    obtain ⟨k, c⟩ := kv
    cases hc : (deref heap c).HandshakePMKID
    · simp [hasPMKIDLoop, hc, ih]
    · simp [hasPMKIDLoop, hc]

/-- C16: `HasPMKID` returns true if and only if some client of the client map
has a station reporting a captured PMKID; it is false for an AccessPoint with
no clients. -/
theorem HasPMKID_iff (ap : AccessPoint) (heap : Heap) :
    ((ap.HasPMKID heap).1 = true ↔ ∃ c ∈ ap.Clients, (deref heap c).HandshakePMKID = true) ∧
      (ap.clients = [] → (ap.HasPMKID heap).1 = false) := by
  constructor
  · simp only [AccessPoint.HasPMKID, hasPMKIDLoop_iff, AccessPoint.Clients, List.mem_map]
    constructor
    · rintro ⟨kv, hkv, hc⟩
      exact ⟨kv.2, ⟨kv, hkv, rfl⟩, hc⟩
    · rintro ⟨c, ⟨kv, hkv, rfl⟩, hc⟩
      exact ⟨kv, hkv, hc⟩
  · intro h
    simp [AccessPoint.HasPMKID, h, hasPMKIDLoop]

theorem mapDelete_cons (kv : String × Ptr) (rest : List (String × Ptr)) (k : String) :
    mapDelete (kv :: rest) k = if kv.1 = k then mapDelete rest k else kv :: mapDelete rest k := by
  unfold mapDelete
  by_cases h : kv.1 = k
  · simp [List.filter_cons, h]
  · simp [List.filter_cons, h]

theorem mapGet_cons (kv : String × Ptr) (rest : List (String × Ptr)) (k : String) :
    mapGet (kv :: rest) k = if k = kv.1 then some kv.2 else mapGet rest k := by
  obtain ⟨k1, v1⟩ := kv
  unfold mapGet
  by_cases h : k = k1
  · subst h
    simp [List.lookup]
  · have hb : (k == k1) = false := by simpa using h
    simp [List.lookup, hb, h]

theorem mapGet_mapDelete_self (m : List (String × Ptr)) (k : String) :
    mapGet (mapDelete m k) k = none := by
  induction m with
  | nil => rfl
  | cons kv rest ih =>
    rw [mapDelete_cons]
    by_cases hk : kv.1 = k
    · rw [if_pos hk]
      exact ih
    · rw [if_neg hk, mapGet_cons, if_neg (fun e => hk e.symm)]
      exact ih

theorem mapGet_mapDelete_other (m : List (String × Ptr)) (k k1 : String) (h : k1 ≠ k) :
    mapGet (mapDelete m k) k1 = mapGet m k1 := by
  induction m with
  | nil => rfl
  | cons kv rest ih =>
    rw [mapDelete_cons, mapGet_cons]
    by_cases hk : kv.1 = k
    · rw [if_pos hk, if_neg (fun e => h (e.trans hk)), ih]
    · rw [if_neg hk, mapGet_cons, ih]

theorem mapDelete_of_none (m : List (String × Ptr)) (k : String) (h : mapGet m k = none) :
    mapDelete m k = m := by
  induction m with
  | nil => rfl
  | cons kv rest ih =>
    rw [mapGet_cons] at h
    by_cases hk : k = kv.1
    · rw [if_pos hk] at h
      cases h
    · rw [if_neg hk] at h
      rw [mapDelete_cons, if_neg (fun e => hk e.symm), ih h]

/-- C17: after `RemoveClient(a)` the lookup `Get(a)` returns no station and
found = false; every entry under another key, the key-material flag, the own
station and the alias store are as before; and when the normalized address was
not a key, the AccessPoint is unchanged. -/
theorem RemoveClient_frame (net : NetEnv) (ap : AccessPoint) (a : String) :
    (ap.RemoveClient net a).Get net a = (none, false) ∧
      (∀ k, k ≠ net.NormalizeMac a →
        mapGet (ap.RemoveClient net a).clients k = mapGet ap.clients k) ∧
      (ap.RemoveClient net a).clients =
        ap.clients.filter (fun kv => decide (kv.1 ≠ net.NormalizeMac a)) ∧
      (ap.RemoveClient net a).withKeyMaterial = ap.withKeyMaterial ∧
      (ap.RemoveClient net a).Station = ap.Station ∧
      (ap.RemoveClient net a).aliases = ap.aliases ∧
      (mapGet ap.clients (net.NormalizeMac a) = none → ap.RemoveClient net a = ap) := by
  refine ⟨?_, ?_, ?_, rfl, rfl, rfl, ?_⟩
  · simp [AccessPoint.Get, AccessPoint.RemoveClient, mapGet_mapDelete_self]
  · intro k hk
    exact mapGet_mapDelete_other ap.clients (net.NormalizeMac a) k hk
  · simp only [AccessPoint.RemoveClient, mapDelete]
    congr 1
    funext kv
    by_cases hk : kv.1 = net.NormalizeMac a <;> simp [hk]
  · intro h
    simp [AccessPoint.RemoveClient, mapDelete_of_none ap.clients _ h]

/-! ## The heap of stations -/

theorem deref_eq (heap : Heap) (p : Ptr) : deref heap p = (heap[p]?).getD nilStation := by
  simp [deref, List.getD_eq_getElem?_getD]

theorem deref_update_same (heap : Heap) (s : Ptr) (f : Station → Station) (h : s < heap.length) :
    deref (update heap s f) s = f (deref heap s) := by
  simp [deref_eq, update, List.getElem?_modify_eq, List.getElem?_eq_getElem h]

theorem deref_update_ne (heap : Heap) (s p : Ptr) (f : Station → Station) (h : p ≠ s) :
    deref (update heap s f) p = deref heap p := by
  simp [deref_eq, update, List.getElem?_modify_ne f heap (Ne.symm h)]

theorem length_update (heap : Heap) (s : Ptr) (f : Station → Station) :
    (update heap s f).length = heap.length := by
  simp [update]

theorem deref_append_old (heap : Heap) (st : Station) (p : Ptr) (h : p < heap.length) :
    deref (heap ++ [st]) p = deref heap p := by
  simp [deref_eq, List.getElem?_append_left h]

theorem deref_append_new (heap : Heap) (st : Station) :
    deref (heap ++ [st]) heap.length = st := by
  simp [deref_eq]

/-! ## In-place update and snapshot -/

/-- The heap left by the found branch of `AddClientIfNew`. -/
theorem AddClientIfNew_found (net : NetEnv) (now : Nat) (ap : AccessPoint) (heap : Heap)
    (a : String) (f r : Int) (s : Ptr)
    (hfound : mapGet ap.clients (net.NormalizeMac a) = some s) :
    (ap.AddClientIfNew net now heap a f r).1 = (s, false) ∧
      (ap.AddClientIfNew net now heap a f r).2.1 = ap ∧
      (ap.AddClientIfNew net now heap a f r).2.2.length = heap.length ∧
      (∀ p, p ≠ s → deref (ap.AddClientIfNew net now heap a f r).2.2 p = deref heap p) ∧
      (s < heap.length →
        deref (ap.AddClientIfNew net now heap a f r).2.2 s =
          { deref heap s with
            Frequency := f, RSSI := r, LastSeen := now,
            Alias := if GetOr ap.aliases (net.NormalizeMac a) "" = "" then (deref heap s).Alias
              else GetOr ap.aliases (net.NormalizeMac a) "" }) := by
  simp only [AccessPoint.AddClientIfNew, hfound]
  by_cases hal : GetOr ap.aliases (net.NormalizeMac a) "" = ""
  · simp only [hal, bne_self_eq_false, Bool.false_eq_true, if_false, if_true]
    refine ⟨trivial, trivial, by simp [length_update], fun p hp => ?_, fun hs => ?_⟩
    · simp [deref_update_ne _ _ _ _ hp]
    · rw [deref_update_same _ _ _ (by simpa [length_update] using hs),
        deref_update_same _ _ _ (by simpa [length_update] using hs),
        deref_update_same _ _ _ hs]
  · have hne : (GetOr ap.aliases (net.NormalizeMac a) "" != "") = true := by simpa using hal
    simp only [hne, if_true, hal, if_false]
    refine ⟨trivial, trivial, by simp [length_update], fun p hp => ?_, fun hs => ?_⟩
    · simp [deref_update_ne _ _ _ _ hp]
    · rw [deref_update_same _ _ _ (by simpa [length_update] using hs),
        deref_update_same _ _ _ (by simpa [length_update] using hs),
        deref_update_same _ _ _ (by simpa [length_update] using hs),
        deref_update_same _ _ _ hs]

/-- C12: when the client map holds the normalized address under a (valid)
station pointer s, `AddClientIfNew(a, f, r)` returns s with isNew = false, sets
the frequency and signal of that station to f and r (and its last-seen time),
replaces its alias by the alias store's value exactly when that value is not
empty, and leaves the client map, the rest of the AccessPoint and every other
station unchanged. -/
theorem AddClientIfNew_existing (net : NetEnv) (now : Nat) (ap : AccessPoint) (heap : Heap)
    (a : String) (f r : Int) (s : Ptr)
    (hfound : mapGet ap.clients (net.NormalizeMac a) = some s) (hvalid : s < heap.length) :
    (ap.AddClientIfNew net now heap a f r).1 = (s, false) ∧
      (ap.AddClientIfNew net now heap a f r).2.1 = ap ∧
      (deref (ap.AddClientIfNew net now heap a f r).2.2 s).Frequency = f ∧
      (deref (ap.AddClientIfNew net now heap a f r).2.2 s).RSSI = r ∧
      (deref (ap.AddClientIfNew net now heap a f r).2.2 s).Alias =
        (if GetOr ap.aliases (net.NormalizeMac a) "" = "" then (deref heap s).Alias
          else GetOr ap.aliases (net.NormalizeMac a) "") ∧
      deref (ap.AddClientIfNew net now heap a f r).2.2 s =
        { deref heap s with
          Frequency := f, RSSI := r, LastSeen := now,
          Alias := (deref (ap.AddClientIfNew net now heap a f r).2.2 s).Alias } ∧
      (∀ p, p ≠ s → deref (ap.AddClientIfNew net now heap a f r).2.2 p = deref heap p) ∧
      (ap.AddClientIfNew net now heap a f r).2.2.length = heap.length := by
  obtain ⟨h1, h2, h3, h4, h5⟩ := AddClientIfNew_found net now ap heap a f r s hfound
  have h6 := h5 hvalid
  refine ⟨h1, h2, ?_, ?_, ?_, ?_, h4, h3⟩
  · rw [h6]
  · rw [h6]
  · rw [h6]
  · rw [h6]

/-- C12, at a concrete input: the first client of `apKeyed` is seen again on
5180 MHz with signal -40; the alias store names it. -/
theorem AddClientIfNew_existing_witness :
    (apKeyed.AddClientIfNew netA 7 heapA "02:00:00:00:00:0A" 5180 (-40)).1 = (1, false) ∧
      (deref (apKeyed.AddClientIfNew netA 7 heapA "02:00:00:00:00:0A" 5180 (-40)).2.2 1).Frequency
        = 5180 ∧
      (deref (apKeyed.AddClientIfNew netA 7 heapA "02:00:00:00:00:0A" 5180 (-40)).2.2 1).Alias
        = "laptop" ∧
      deref (apKeyed.AddClientIfNew netA 7 heapA "02:00:00:00:00:0A" 5180 (-40)).2.2 2
        = deref heapA 2 :=
  have h := AddClientIfNew_existing netA 7 apKeyed heapA "02:00:00:00:00:0A" 5180 (-40) 1
    (by decide) (by decide)
  ⟨h.1, h.2.2.1, h.2.2.2.2.1.trans (by decide), h.2.2.2.2.2.2.1 2 (by decide)⟩

theorem copyMapLoop_eq (l acc : List (String × String))
    (h : ((acc ++ l).map Prod.fst).Nodup) : copyMapLoop l acc = acc ++ l := by
  induction l generalizing acc with
  | nil => simp [copyMapLoop]
  | cons kv rest ih =>
    obtain ⟨k, v⟩ := kv
    have hk : acc.lookup k = none := by
      rw [List.lookup_eq_none_iff]
      intro p hp
      simp only [List.map_append, List.map_cons] at h
      have hd := (List.nodup_append.1 h).2.2
      have : p.1 ≠ k := fun e =>
        hd (List.mem_map_of_mem Prod.fst hp) (by simp [e])
      simpa using fun e => this e.symm
    have hs : strMapSet acc k v = acc ++ [(k, v)] := by simp [strMapSet, hk]
    rw [copyMapLoop, hs, ih (acc ++ [(k, v)]) (by simpa using h)]
    simp

theorem CopyMap_eq_self (m : List (String × String)) (h : (m.map Prod.fst).Nodup) :
    CopyMap m = m := by
  simpa [CopyMap] using copyMapLoop_eq m [] (by simpa using h)

/-- Replacing the WPS mapping of a station changes no other attribute of any
station. -/
theorem deref_update_wps (heap : Heap) (s p : Ptr) (w : List (String × String)) :
    { deref (update heap s (fun st => { st with WPS := w })) p with WPS := [] } =
      { deref heap p with WPS := [] } := by
  by_cases hp : p = s
  · subst hp
    by_cases hv : p < heap.length
    · rw [deref_update_same _ _ _ hv]
    · have : update heap p (fun st => { st with WPS := w }) = heap := by
        simpa [update] using List.modify_eq_self (Nat.le_of_not_lt hv)
      rw [this]
  · rw [deref_update_ne _ _ _ _ hp]

/-- Writing back a copy of a WPS mapping whose keys are unique changes
nothing. -/
theorem update_copy_eq (heap : Heap) (s : Ptr)
    (hw : ∀ st ∈ heap, (st.WPS.map Prod.fst).Nodup) :
    update heap s (fun st => { st with WPS := CopyMap (deref heap s).WPS }) = heap := by
  apply List.ext_getElem?
  intro i
  simp only [update, List.getElem?_modify]
  cases hi : heap[i]? with
  | none => rfl
  | some a =>
    by_cases hsi : s = i
    · subst hsi
      have hd : deref heap s = a := by simp [deref_eq, hi]
      have hm : a ∈ heap := by
        obtain ⟨hlt, he⟩ := List.getElem?_eq_some_iff.1 hi
        rw [← he]
        exact List.getElem_mem hlt
      simp [hd, CopyMap_eq_self a.WPS (hw a hm)]
    · simp [hsi]

theorem buildDocLoop_spec (l : List (String × Ptr)) (clients : List Ptr) (heap : Heap) :
    (buildDocLoop l clients heap).1 = clients ++ l.map Prod.snd ∧
      (buildDocLoop l clients heap).2.length = heap.length ∧
      (∀ p, { deref (buildDocLoop l clients heap).2 p with WPS := [] } =
        { deref heap p with WPS := [] }) ∧
      ((∀ st ∈ heap, (st.WPS.map Prod.fst).Nodup) → (buildDocLoop l clients heap).2 = heap) := by
  induction l generalizing clients heap with
  | nil => simp [buildDocLoop]
  | cons kv rest ih =>
    obtain ⟨k, c⟩ := kv
    obtain ⟨h1, h2, h3, h4⟩ := ih (clients ++ [c])
      (update heap c (fun st => { st with WPS := CopyMap (deref heap c).WPS }))
    simp only [buildDocLoop]
    refine ⟨by simp [h1], by simp [h2, length_update], fun p => ?_, fun hw => ?_⟩
    · rw [h3 p, deref_update_wps]
    · have he := update_copy_eq heap c hw
      rw [he] at h4 ⊢
      exact h4 hw

/-- The heap left by `BuildDoc`: as long as before, with every attribute of
every station other than the WPS mapping as before. -/
theorem BuildDoc_heap (ap : AccessPoint) (heap : Heap) :
    (ap.BuildDoc heap).2.2.length = heap.length ∧
      (∀ p, { deref (ap.BuildDoc heap).2.2 p with WPS := [] } = { deref heap p with WPS := [] }) := by
  obtain ⟨_, h2, h3, _⟩ := buildDocLoop_spec ap.clients [] heap
  refine ⟨by simp [AccessPoint.BuildDoc, length_update, h2], fun p => ?_⟩
  simp only [AccessPoint.BuildDoc]
  rw [deref_update_wps, h3 p]

/-- C13 fails as stated: a snapshot of `apKeyed` is taken, then the first
client is seen again on 5180 MHz; read after that, the client record of the
snapshot taken earlier shows 5180 MHz instead of 2437 MHz. -/
theorem BuildDoc_alias_counterexample :
    (apKeyed.BuildDoc heapC).1.Clients = [1, 2] ∧
      ((apKeyed.BuildDoc heapC).1.records (apKeyed.BuildDoc heapC).2.2).map
          (fun st => st.Frequency) = [2437, 2437] ∧
      ((apKeyed.BuildDoc heapC).1.records
          ((apKeyed.BuildDoc heapC).2.1.AddClientIfNew netA 7 (apKeyed.BuildDoc heapC).2.2
            "02:00:00:00:00:0A" 5180 (-40)).2.2).map
          (fun st => st.Frequency) = [5180, 2437] := by
  refine ⟨?_, ?_, ?_⟩ <;> decide

/-- C13, amended: the record returned by `BuildDoc` is not a deep copy. It
carries the key-material flag by value and, as its own station and its client
list, the very station pointers of the AccessPoint as of the call; taking it
leaves the AccessPoint itself as it was and changes no attribute of any station
other than replacing WPS mappings by copies (nothing at all when every WPS
mapping has unique keys). A later `AddClientIfNew` on an existing client writes
to a station the record refers to, so the record then shows the new frequency
and signal. -/
theorem BuildDoc_shares_stations (ap : AccessPoint) (heap : Heap) :
    (ap.BuildDoc heap).1.Station = ap.Station ∧
      (ap.BuildDoc heap).1.Clients = ap.Clients ∧
      (ap.BuildDoc heap).1.Handshake = ap.withKeyMaterial ∧
      (ap.BuildDoc heap).2.1 = ap ∧
      (ap.BuildDoc heap).2.2.length = heap.length ∧
      (∀ p, { deref (ap.BuildDoc heap).2.2 p with WPS := [] } = { deref heap p with WPS := [] }) ∧
      ((∀ st ∈ heap, (st.WPS.map Prod.fst).Nodup) → (ap.BuildDoc heap).2.2 = heap) ∧
      (∀ (net : NetEnv) (now : Nat) (a : String) (f r : Int) (s : Ptr),
        mapGet ap.clients (net.NormalizeMac a) = some s → s < heap.length →
        s ∈ (ap.BuildDoc heap).1.Clients ∧
          (deref ((ap.BuildDoc heap).2.1.AddClientIfNew net now (ap.BuildDoc heap).2.2 a f r).2.2
            s).Frequency = f ∧
          (deref ((ap.BuildDoc heap).2.1.AddClientIfNew net now (ap.BuildDoc heap).2.2 a f r).2.2
            s).RSSI = r) := by
  obtain ⟨h1, h2, h3, h4⟩ := buildDocLoop_spec ap.clients [] heap
  have hS : (ap.BuildDoc heap).1.Station = ap.Station := rfl
  have hC : (ap.BuildDoc heap).1.Clients = ap.Clients := by
    simp [AccessPoint.BuildDoc, h1, AccessPoint.Clients]
  have hA : (ap.BuildDoc heap).2.1 = ap := rfl
  have hL : (ap.BuildDoc heap).2.2.length = heap.length := by
    simp [AccessPoint.BuildDoc, length_update, h2]
  refine ⟨hS, hC, rfl, hA, hL, fun p => ?_, fun hw => ?_, ?_⟩
  · simp only [AccessPoint.BuildDoc]
    rw [deref_update_wps, h3 p]
  · have he := h4 hw
    simp only [AccessPoint.BuildDoc, he]
    exact update_copy_eq heap ap.Station hw
  · intro net now a f r s hfound hvalid
    have hmem : s ∈ ap.Clients := by
      have hl : ap.clients.lookup (net.NormalizeMac a) = some s := hfound
      rw [List.lookup_eq_some_iff] at hl
      obtain ⟨l1, l2, he, _⟩ := hl
      simp [AccessPoint.Clients, he]
    rw [hA]
    have hf := (AddClientIfNew_found net now ap (ap.BuildDoc heap).2.2 a f r s hfound).2.2.2.2
      (by rw [hL]; exact hvalid)
    refine ⟨hC ▸ hmem, ?_, ?_⟩
    · rw [hf]
    · rw [hf]

/-- C13, amended, at a concrete input: the snapshot of `apKeyed` over `heapC`
leaves the heap as it was. -/
theorem BuildDoc_shares_stations_witness :
    (apKeyed.BuildDoc heapC).1.Clients = [1, 2] ∧ (apKeyed.BuildDoc heapC).2.2 = heapC :=
  have h := BuildDoc_shares_stations apKeyed heapC
  ⟨h.2.1.trans (by decide), h.2.2.2.2.2.2.1 (by decide)⟩

/-! ## The client-key invariant -/

/-- The result of the not-found branch of `AddClientIfNew`. -/
theorem AddClientIfNew_fresh (net : NetEnv) (now : Nat) (ap : AccessPoint) (heap : Heap)
    (a : String) (f r : Int) (hnone : mapGet ap.clients (net.NormalizeMac a) = none) :
    ap.AddClientIfNew net now heap a f r =
      ((heap.length, true),
        { ap with clients := ap.clients ++ [(net.NormalizeMac a, heap.length)] },
        update (heap ++ [net.NewStation "" (net.NormalizeMac a) f r]) heap.length
          (fun st => { st with Alias := GetOr ap.aliases (net.NormalizeMac a) "" })) := by
  have h1 : ap.clients.lookup (net.NormalizeMac a) = none := hnone
  simp only [AccessPoint.AddClientIfNew, hnone, alloc, mapSet, h1]

theorem mem_of_mapGet (m : List (String × Ptr)) (k : String) (s : Ptr)
    (h : mapGet m k = some s) : (k, s) ∈ m := by
  have hl : m.lookup k = some s := h
  rw [List.lookup_eq_some_iff] at hl
  obtain ⟨l1, l2, he, _⟩ := hl
  simp [he]

theorem eachClientLoop_keeps (cb : String → Ptr → Heap → Heap) (hcb : KeepsAddresses cb)
    (l : List (String × Ptr)) (heap : Heap) :
    heap.length ≤ (eachClientLoop cb l heap).length ∧
      ∀ q, q < heap.length →
        (deref (eachClientLoop cb l heap) q).HwAddress = (deref heap q).HwAddress := by
  induction l generalizing heap with
  | nil => exact ⟨Nat.le_refl _, fun _ _ => rfl⟩
  | cons kv rest ih =>
    obtain ⟨m, p⟩ := kv
    obtain ⟨h1, h2⟩ := hcb m p heap
    obtain ⟨h3, h4⟩ := ih (cb m p heap)
    refine ⟨Nat.le_trans h1 h3, fun q hq => ?_⟩
    rw [eachClientLoop, h4 q (Nat.lt_of_lt_of_le hq h1), h2 q hq]

theorem keysMatch_of_reachable (net : NetEnv)
    (hNew : ∀ essid bssid frequency rssi,
      (net.NewStation essid bssid frequency rssi).HwAddress = net.NormalizeMac bssid)
    (ap : AccessPoint) (heap : Heap) (h : Reachable net ap heap) : KeysMatch net ap heap := by
  induction h with
  | newAccessPoint heap essid bssid frequency rssi aliases =>
    intro kv hkv
    simp [NewAccessPoint, alloc] at hkv
  | @addClientIfNew ap heap _ now bssid frequency rssi hb ih =>
    cases hget : mapGet ap.clients (net.NormalizeMac bssid) with
    | some s =>
      obtain ⟨_, h2, h3, h4, h5⟩ :=
        AddClientIfNew_found net now ap heap bssid frequency rssi s hget
      have hs := ih (net.NormalizeMac bssid, s) (mem_of_mapGet _ _ _ hget)
      intro kv hkv
      rw [h2] at hkv
      obtain ⟨hv, ha, hn⟩ := ih kv hkv
      refine ⟨by rw [h3]; exact hv, ?_, hn⟩
      by_cases hp : kv.2 = s
      · rw [hp, h5 hs.1]
        rw [hp] at ha
        exact ha
      · rw [h4 kv.2 hp]
        exact ha
    | none =>
      rw [AddClientIfNew_fresh net now ap heap bssid frequency rssi hget]
      intro kv hkv
      simp only [List.mem_append, List.mem_singleton] at hkv
      rcases hkv with hkv | hkv
      · obtain ⟨hv, ha, hn⟩ := ih kv hkv
        refine ⟨?_, ?_, hn⟩
        · simp only [length_update, List.length_append, List.length_singleton]
          exact Nat.lt_succ_of_lt hv
        rw [deref_update_ne _ _ _ _ (Nat.ne_of_lt hv), deref_append_old _ _ _ hv]
        exact ha
      · subst hkv
        refine ⟨by simp [length_update], ?_, hb⟩
        simp only
        rw [deref_update_same _ _ _ (by simp), deref_append_new]
        simp [hNew, hb]
  | @removeClient ap heap _ mac ih =>
    intro kv hkv
    exact ih kv (List.mem_of_mem_filter hkv)
  | @withKeyMaterial ap heap _ state ih => exact ih
  | @eachClient ap heap _ cb hcb ih =>
    obtain ⟨h1, h2⟩ := eachClientLoop_keeps cb hcb ap.clients heap
    intro kv hkv
    obtain ⟨hv, ha, hn⟩ := ih kv hkv
    exact ⟨Nat.lt_of_lt_of_le hv h1, (h2 kv.2 hv).trans ha, hn⟩
  | @buildDoc ap heap _ ih =>
    obtain ⟨hL, hF⟩ := BuildDoc_heap ap heap
    intro kv hkv
    obtain ⟨hv, ha, hn⟩ := ih kv hkv
    refine ⟨by rw [hL]; exact hv, ?_, hn⟩
    have := congrArg Station.HwAddress (hF kv.2)
    exact this.trans ha

/-! ## Addresses that `NormalizeMac` leaves as they are -/

theorem splitChars_ne_nil (sep : Char) (l : List Char) : splitChars sep l ≠ [] := by
  cases l with
  | nil => simp [splitChars]
  | cons c rest =>
    unfold splitChars
    split_ifs
    · simp
    · split <;> simp

theorem splitChars_append (sep : Char) (p tail : List Char) (hp : sep ∉ p) :
    splitChars sep (p ++ sep :: tail) = p :: splitChars sep tail := by
  induction p with
  | nil => simp [splitChars]
  | cons c rest ih =>
    have hc : c ≠ sep := fun e => hp (by simp [e])
    have hr : sep ∉ rest := fun h => hp (List.mem_cons_of_mem _ h)
    rw [List.cons_append, splitChars, if_neg hc, ih hr]

theorem splitChars_of_not_mem (sep : Char) (p : List Char) (hp : sep ∉ p) :
    splitChars sep p = [p] := by
  induction p with
  | nil => rfl
  | cons c rest ih =>
    have hc : c ≠ sep := fun e => hp (by simp [e])
    have hr : sep ∉ rest := fun h => hp (List.mem_cons_of_mem _ h)
    rw [splitChars, if_neg hc, ih hr]

theorem splitChars_joinChars (parts : List (List Char)) (hne : parts ≠ [])
    (hp : ∀ p ∈ parts, ':' ∉ p) : splitChars ':' (joinChars parts) = parts := by
  induction parts with
  | nil => exact absurd rfl hne
  | cons p rest ih =>
    cases rest with
    | nil => exact splitChars_of_not_mem ':' p (hp p (by simp))
    | cons q rest2 =>
      rw [joinChars, splitChars_append ':' p _ (hp p (by simp)),
        ih (by simp) (fun x hx => hp x (List.mem_cons_of_mem _ hx))]

theorem not_mem_joinChars (parts : List (List Char)) (hp : ∀ p ∈ parts, '-' ∉ p) :
    '-' ∉ joinChars parts := by
  induction parts with
  | nil => simp [joinChars]
  | cons p rest ih =>
    cases rest with
    | nil => exact hp p (by simp)
    | cons q rest2 =>
      rw [joinChars]
      intro h
      rcases List.mem_append.1 h with h | h
      · exact hp p (by simp) h
      · rcases List.mem_cons.1 h with h | h
        · exact absurd h (by decide)
        · exact ih (fun x hx => hp x (List.mem_cons_of_mem _ hx)) h

theorem map_padPart_eq (parts : List (List Char)) (hp : ∀ p ∈ parts, 2 ≤ p.length) :
    parts.map padPart = parts := by
  induction parts with
  | nil => rfl
  | cons p rest ih =>
    have h2 : ¬ p.length < 2 := Nat.not_lt.2 (hp p (by simp))
    simp [padPart, h2, ih (fun x hx => hp x (List.mem_cons_of_mem _ hx))]

theorem lowerChar_idem (c : Char) : lowerChar (lowerChar c) = lowerChar c := by
  by_cases hA : c = 'A'
  · subst hA; decide
  by_cases hB : c = 'B'
  · subst hB; decide
  by_cases hC : c = 'C'
  · subst hC; decide
  by_cases hD : c = 'D'
  · subst hD; decide
  by_cases hE : c = 'E'
  · subst hE; decide
  by_cases hF : c = 'F'
  · subst hF; decide
  by_cases hG : c = 'G'
  · subst hG; decide
  by_cases hH : c = 'H'
  · subst hH; decide
  by_cases hI : c = 'I'
  · subst hI; decide
  by_cases hJ : c = 'J'
  · subst hJ; decide
  by_cases hK : c = 'K'
  · subst hK; decide
  by_cases hL : c = 'L'
  · subst hL; decide
  by_cases hM : c = 'M'
  · subst hM; decide
  by_cases hN : c = 'N'
  · subst hN; decide
  by_cases hO : c = 'O'
  · subst hO; decide
  by_cases hP : c = 'P'
  · subst hP; decide
  by_cases hQ : c = 'Q'
  · subst hQ; decide
  by_cases hR : c = 'R'
  · subst hR; decide
  by_cases hS : c = 'S'
  · subst hS; decide
  by_cases hT : c = 'T'
  · subst hT; decide
  by_cases hU : c = 'U'
  · subst hU; decide
  by_cases hV : c = 'V'
  · subst hV; decide
  by_cases hW : c = 'W'
  · subst hW; decide
  by_cases hX : c = 'X'
  · subst hX; decide
  by_cases hY : c = 'Y'
  · subst hY; decide
  by_cases hZ : c = 'Z'
  · subst hZ; decide
  have hc : lowerChar c = c := by simp [lowerChar, hA, hB, hC, hD, hE, hF, hG, hH, hI, hJ, hK, hL, hM, hN, hO, hP, hQ, hR, hS, hT, hU, hV, hW, hX, hY, hZ]
  rw [hc, hc]

theorem lowerChar_eq_sep (c : Char) :
    (lowerChar c = ':' → c = ':') ∧ (lowerChar c = '-' → c = '-') := by
  by_cases hA : c = 'A'
  · subst hA; exact ⟨fun h => absurd h (by decide), fun h => absurd h (by decide)⟩
  by_cases hB : c = 'B'
  · subst hB; exact ⟨fun h => absurd h (by decide), fun h => absurd h (by decide)⟩
  by_cases hC : c = 'C'
  · subst hC; exact ⟨fun h => absurd h (by decide), fun h => absurd h (by decide)⟩
  by_cases hD : c = 'D'
  · subst hD; exact ⟨fun h => absurd h (by decide), fun h => absurd h (by decide)⟩
  by_cases hE : c = 'E'
  · subst hE; exact ⟨fun h => absurd h (by decide), fun h => absurd h (by decide)⟩
  by_cases hF : c = 'F'
  · subst hF; exact ⟨fun h => absurd h (by decide), fun h => absurd h (by decide)⟩
  by_cases hG : c = 'G'
  · subst hG; exact ⟨fun h => absurd h (by decide), fun h => absurd h (by decide)⟩
  by_cases hH : c = 'H'
  · subst hH; exact ⟨fun h => absurd h (by decide), fun h => absurd h (by decide)⟩
  by_cases hI : c = 'I'
  · subst hI; exact ⟨fun h => absurd h (by decide), fun h => absurd h (by decide)⟩
  by_cases hJ : c = 'J'
  · subst hJ; exact ⟨fun h => absurd h (by decide), fun h => absurd h (by decide)⟩
  by_cases hK : c = 'K'
  · subst hK; exact ⟨fun h => absurd h (by decide), fun h => absurd h (by decide)⟩
  by_cases hL : c = 'L'
  · subst hL; exact ⟨fun h => absurd h (by decide), fun h => absurd h (by decide)⟩
  by_cases hM : c = 'M'
  · subst hM; exact ⟨fun h => absurd h (by decide), fun h => absurd h (by decide)⟩
  by_cases hN : c = 'N'
  · subst hN; exact ⟨fun h => absurd h (by decide), fun h => absurd h (by decide)⟩
  by_cases hO : c = 'O'
  · subst hO; exact ⟨fun h => absurd h (by decide), fun h => absurd h (by decide)⟩
  by_cases hP : c = 'P'
  · subst hP; exact ⟨fun h => absurd h (by decide), fun h => absurd h (by decide)⟩
  by_cases hQ : c = 'Q'
  · subst hQ; exact ⟨fun h => absurd h (by decide), fun h => absurd h (by decide)⟩
  by_cases hR : c = 'R'
  · subst hR; exact ⟨fun h => absurd h (by decide), fun h => absurd h (by decide)⟩
  by_cases hS : c = 'S'
  · subst hS; exact ⟨fun h => absurd h (by decide), fun h => absurd h (by decide)⟩
  by_cases hT : c = 'T'
  · subst hT; exact ⟨fun h => absurd h (by decide), fun h => absurd h (by decide)⟩
  by_cases hU : c = 'U'
  · subst hU; exact ⟨fun h => absurd h (by decide), fun h => absurd h (by decide)⟩
  by_cases hV : c = 'V'
  · subst hV; exact ⟨fun h => absurd h (by decide), fun h => absurd h (by decide)⟩
  by_cases hW : c = 'W'
  · subst hW; exact ⟨fun h => absurd h (by decide), fun h => absurd h (by decide)⟩
  by_cases hX : c = 'X'
  · subst hX; exact ⟨fun h => absurd h (by decide), fun h => absurd h (by decide)⟩
  by_cases hY : c = 'Y'
  · subst hY; exact ⟨fun h => absurd h (by decide), fun h => absurd h (by decide)⟩
  by_cases hZ : c = 'Z'
  · subst hZ; exact ⟨fun h => absurd h (by decide), fun h => absurd h (by decide)⟩
  have hc : lowerChar c = c := by simp [lowerChar, hA, hB, hC, hD, hE, hF, hG, hH, hI, hJ, hK, hL, hM, hN, hO, hP, hQ, hR, hS, hT, hU, hV, hW, hX, hY, hZ]
  rw [hc]
  exact ⟨id, id⟩

theorem map_lowerChar_joinChars (parts : List (List Char)) :
    (joinChars parts).map lowerChar = joinChars (parts.map (List.map lowerChar)) := by
  induction parts with
  | nil => rfl
  | cons p rest ih =>
    cases rest with
    | nil => rfl
    | cons q rest2 =>
      simp only [joinChars, List.map_append, List.map_cons, List.map] at ih ⊢
      rw [ih]
      rfl

/-- `NormalizeMac` on a colon-separated address whose parts have at least two
characters and no separator in them only lower-cases it. -/
theorem normalizeMacChars_joinChars (parts : List (List Char)) (hne : parts ≠ [])
    (hp : ∀ p ∈ parts, 2 ≤ p.length ∧ ':' ∉ p ∧ '-' ∉ p) :
    normalizeMacChars (joinChars parts) = joinChars (parts.map (List.map lowerChar)) := by
  have h1 : '-' ∉ joinChars parts := not_mem_joinChars parts (fun p h => (hp p h).2.2)
  have h2 := splitChars_joinChars parts hne (fun p h => (hp p h).2.1)
  have h3 := map_padPart_eq parts (fun p h => (hp p h).1)
  simp only [normalizeMacChars, h1, if_false, h2, h3, map_lowerChar_joinChars]

/-- Every colon-separated address whose parts have at least two characters and
no separator in them has a normal form that `NormalizeMac` leaves as it is. -/
theorem NormalizeMac_stable (parts : List (List Char)) (hne : parts ≠ [])
    (hp : ∀ p ∈ parts, 2 ≤ p.length ∧ ':' ∉ p ∧ '-' ∉ p) :
    NormalizeMac (NormalizeMac (String.mk (joinChars parts))) =
      NormalizeMac (String.mk (joinChars parts)) := by
  have hp2 : ∀ p ∈ parts.map (List.map lowerChar), 2 ≤ p.length ∧ ':' ∉ p ∧ '-' ∉ p := by
    intro p hmem
    obtain ⟨q, hq, rfl⟩ := List.mem_map.1 hmem
    obtain ⟨hl, hc, hd⟩ := hp q hq
    refine ⟨by simpa using hl, ?_, ?_⟩
    · intro h
      obtain ⟨c, hcq, he⟩ := List.mem_map.1 h
      exact hc (((lowerChar_eq_sep c).1 he) ▸ hcq)
    · intro h
      obtain ⟨c, hcq, he⟩ := List.mem_map.1 h
      exact hd (((lowerChar_eq_sep c).2 he) ▸ hcq)
  have hne2 : parts.map (List.map lowerChar) ≠ [] := by simpa using hne
  simp only [NormalizeMac]
  rw [normalizeMacChars_joinChars parts hne hp,
    normalizeMacChars_joinChars _ hne2 hp2]
  congr 2
  rw [List.map_map]
  apply List.map_congr_left
  intro p _
  rw [Function.comp_apply, List.map_map]
  apply List.map_congr_left
  intro c _
  exact lowerChar_idem c

/-- C14 fails as stated: on a new AccessPoint, `AddClientIfNew` with the empty
address stores the key "0" (the normalized address) for a station whose address
is "00" (`NewStation` normalizes what it is given once more), and "00" is
normalized, so the key is not the normalized address of its station. -/
theorem client_key_counterexample :
    ((NewAccessPoint netGo [] "net" "02:00:00:00:00:01" 2437 (-30) []).1.AddClientIfNew netGo 7
        (NewAccessPoint netGo [] "net" "02:00:00:00:00:01" 2437 (-30) []).2
        "" 2437 (-50)).2.1.clients = [("0", 1)] ∧
      (deref ((NewAccessPoint netGo [] "net" "02:00:00:00:00:01" 2437 (-30) []).1.AddClientIfNew
        netGo 7 (NewAccessPoint netGo [] "net" "02:00:00:00:00:01" 2437 (-30) []).2
        "" 2437 (-50)).2.2 1).HwAddress = "00" ∧
      netGo.NormalizeMac "00" = "00" ∧
      netGo.NormalizeMac "" = "0" ∧
      netGo.NormalizeMac (netGo.NormalizeMac "") ≠ netGo.NormalizeMac "" := by
  refine ⟨?_, ?_, ?_, ?_, ?_⟩ <;> decide

/-- C14, amended: `NewStation` storing the normalized address it is given, in
every state reachable from `NewAccessPoint` by `AddClientIfNew` (on addresses
whose normal form `NormalizeMac` leaves as it is), `RemoveClient`,
`WithKeyMaterial`, `EachClient` (with callbacks that leave station addresses
alone) and `BuildDoc`, every entry (k, s) of the client map has k equal to the
address of station s, which is normalized. -/
theorem client_key_invariant (net : NetEnv)
    (hNew : ∀ essid bssid frequency rssi,
      (net.NewStation essid bssid frequency rssi).HwAddress = net.NormalizeMac bssid)
    (ap : AccessPoint) (heap : Heap) (h : Reachable net ap heap) (k : String) (s : Ptr)
    (hks : (k, s) ∈ ap.clients) :
    k = (deref heap s).HwAddress ∧ k = net.NormalizeMac (deref heap s).HwAddress := by
  obtain ⟨_, ha, hn⟩ := keysMatch_of_reachable net hNew ap heap h (k, s) hks
  simp only at ha hn
  exact ⟨ha.symm, by rw [ha, hn]⟩

theorem netGo_new (essid bssid : String) (frequency rssi : Int) :
    (netGo.NewStation essid bssid frequency rssi).HwAddress = netGo.NormalizeMac bssid := rfl

/-- C14, amended, at a concrete input: a new AccessPoint on an empty heap, then
a client announced with its address in capitals. -/
theorem client_key_invariant_witness :
    netGo.NormalizeMac (netGo.NormalizeMac "02:00:00:00:00:0A")
        = netGo.NormalizeMac "02:00:00:00:00:0A" ∧
      ("02:00:00:00:00:0a", 1) ∈
        ((NewAccessPoint netGo [] "net" "02:00:00:00:00:01" 2437 (-30) []).1.AddClientIfNew netGo 7
          (NewAccessPoint netGo [] "net" "02:00:00:00:00:01" 2437 (-30) []).2
          "02:00:00:00:00:0A" 2437 (-50)).2.1.clients ∧
      "02:00:00:00:00:0a" =
        (deref ((NewAccessPoint netGo [] "net" "02:00:00:00:00:01" 2437 (-30) []).1.AddClientIfNew
          netGo 7 (NewAccessPoint netGo [] "net" "02:00:00:00:00:01" 2437 (-30) []).2
          "02:00:00:00:00:0A" 2437 (-50)).2.2 1).HwAddress :=
  have hb : netGo.NormalizeMac (netGo.NormalizeMac "02:00:00:00:00:0A")
      = netGo.NormalizeMac "02:00:00:00:00:0A" := by decide
  have hm : ("02:00:00:00:00:0a", 1) ∈
      ((NewAccessPoint netGo [] "net" "02:00:00:00:00:01" 2437 (-30) []).1.AddClientIfNew netGo 7
        (NewAccessPoint netGo [] "net" "02:00:00:00:00:01" 2437 (-30) []).2
        "02:00:00:00:00:0A" 2437 (-50)).2.1.clients := by decide
  ⟨hb, hm, (client_key_invariant netGo netGo_new _ _
    (Reachable.addClientIfNew (Reachable.newAccessPoint [] "net" "02:00:00:00:00:01" 2437 (-30) [])
      7 "02:00:00:00:00:0A" 2437 (-50) hb) "02:00:00:00:00:0a" 1 hm).1⟩

/-! ## Resolution and scheduling keep every flow once -/

theorem resolveClients_eq_filter (mod : WiFiModule) (heap : Heap) (target : HardwareAddr)
    (ap : AccessPoint) (cs : List Ptr) (acc : List flow) :
    resolveClients mod heap target (IsBroadcastMac target)
        (bytesEqual (deref heap ap.Station).HW target) ap cs acc =
      acc ++ (cs.map (fun client => ({ Ap := ap, Client := client } : flow))).filter
        (fun f => decide (qualifies mod.deauthSkip heap target f.Ap f.Client)) := by
  induction cs generalizing acc with
  | nil => simp [resolveClients]
  | cons c rest ih =>
    have hq : qualifies mod.deauthSkip heap target ap c ↔
        ((IsBroadcastMac target || bytesEqual (deref heap ap.Station).HW target ||
            bytesEqual (deref heap c).HW target) = true) ∧
          ((!mod.skipDeauth (deref heap ap.Station).HW && !mod.skipDeauth (deref heap c).HW)
            = true) := by
      simp only [qualifies, IsBroadcastMac, Bool.or_eq_true, bytesEqual_iff, Bool.and_eq_true,
        Bool.not_eq_true', ← Bool.not_eq_true, skipDeauth_iff, or_assoc]
    unfold resolveClients
    by_cases h1 : (IsBroadcastMac target || bytesEqual (deref heap ap.Station).HW target ||
        bytesEqual (deref heap c).HW target) = true
    · by_cases h2 : (!mod.skipDeauth (deref heap ap.Station).HW &&
          !mod.skipDeauth (deref heap c).HW) = true
      · have hc : qualifies mod.deauthSkip heap target ap c := hq.2 ⟨h1, h2⟩
        rw [if_pos h1, if_pos h2, ih]
        simp [List.filter_cons, hc]
      · have hc : ¬ qualifies mod.deauthSkip heap target ap c := fun h => h2 (hq.1 h).2
        rw [if_pos h1, if_neg h2, ih]
        simp [List.filter_cons, hc]
    · have hc : ¬ qualifies mod.deauthSkip heap target ap c := fun h => h1 (hq.1 h).1
      rw [if_neg h1, ih]
      simp [List.filter_cons, hc]

theorem resolveAPs_eq_filter (mod : WiFiModule) (heap : Heap) (target : HardwareAddr)
    (aps : List AccessPoint) (acc : List flow) :
    resolveAPs mod heap target (IsBroadcastMac target) aps acc =
      acc ++ (allPairs aps).filter
        (fun f => decide (qualifies mod.deauthSkip heap target f.Ap f.Client)) := by
  induction aps generalizing acc with
  | nil => simp [resolveAPs, allPairs]
  | cons ap rest ih =>
    rw [resolveAPs, ih, resolveClients_eq_filter]
    simp [allPairs, List.flatMap_cons, List.filter_append]

/-- Target resolution is a filter of the registry's pairs. -/
theorem resolveFlows_eq_filter (mod : WiFiModule) (heap : Heap) (registry : List AccessPoint)
    (target : HardwareAddr) :
    resolveFlows mod heap registry target =
      (allPairs registry).filter
        (fun f => decide (qualifies mod.deauthSkip heap target f.Ap f.Client)) := by
  simp [resolveFlows, resolveAPs_eq_filter]

theorem allPairs_nodup (registry : List AccessPoint) (hreg : registry.Nodup)
    (hcl : ∀ ap ∈ registry, ap.Clients.Nodup) : (allPairs registry).Nodup := by
  unfold allPairs
  rw [List.nodup_flatMap]
  refine ⟨fun ap hap => ?_, ?_⟩
  · refine (hcl ap hap).map ?_
    intro c1 c2 h
    simpa using h
  · refine hreg.imp ?_
    intro a b hab
    simp only [Function.onFun, List.Disjoint, List.mem_map]
    rintro f ⟨c1, _, rfl⟩ ⟨c2, _, h2⟩
    exact hab (by simpa using (congrArg flow.Ap h2).symm)

/-- C19: when `sort.Slice` keeps its documented contract, the sequence the
worker iterates is a permutation of the flow list it was given (every flow with
the same multiplicity); and the resolved flow list is a sublist of the
registry's (AccessPoint, client) pairs, so it holds no pair more often than the
registry does, and each pair at most once when the registry lists each
AccessPoint once and each AccessPoint lists each client once. -/
theorem schedule_keeps_flows (env : Env) (heap : Heap) (registry : List AccessPoint)
    (mod : WiFiModule) (target : HardwareAddr) (hsort : SortSliceContract env.sortSlice) :
    (∀ toDeauth : List flow, (schedule env heap toDeauth).Perm toDeauth ∧
        ∀ f, (schedule env heap toDeauth).count f = toDeauth.count f) ∧
      (resolveFlows mod heap registry target).Sublist (allPairs registry) ∧
      (∀ f, (resolveFlows mod heap registry target).count f ≤ (allPairs registry).count f) ∧
      (registry.Nodup → (∀ ap ∈ registry, ap.Clients.Nodup) →
        (resolveFlows mod heap registry target).Nodup ∧
        (schedule env heap (resolveFlows mod heap registry target)).Nodup) := by
  have hsub : (resolveFlows mod heap registry target).Sublist (allPairs registry) := by
    rw [resolveFlows_eq_filter]
    exact List.filter_sublist _
  refine ⟨fun toDeauth => ?_, hsub, fun f => hsub.count_le f, fun hreg hcl => ?_⟩
  · have hp := schedule_perm env heap toDeauth hsort
    exact ⟨hp, fun f => hp.count_eq f⟩
  · have hn : (resolveFlows mod heap registry target).Nodup :=
      (allPairs_nodup registry hreg hcl).sublist hsub
    exact ⟨hn, (schedule_perm env heap _ hsort).nodup_iff.2 hn⟩

/-- C19, at a concrete input: the thirteen flows of `heapB`. -/
theorem schedule_keeps_flows_witness :
    (schedule envOk heapB (resolveFlows mod0 heapB [apSix, apOne] BroadcastHw)).Perm
        (resolveFlows mod0 heapB [apSix, apOne] BroadcastHw) ∧
      (resolveFlows mod0 heapB [apSix, apOne] BroadcastHw).Nodup :=
  have h := schedule_keeps_flows envOk heapB [apSix, apOne] mod0 BroadcastHw envOk_contract
  ⟨(h.1 _).1, (h.2.2.2 (by decide) (by decide)).1⟩

/-! ## On-demand activation -/

theorem deauthWorker_all_cancelled (env : Env) (heap : Heap) (mod : WiFiModule)
    (toDeauth : List flow) (h : ∀ k, mod.polls ≤ k → env.Running k = false) :
    (mod.deauthWorker env heap toDeauth).trace = mod.trace := by
  simp only [WiFiModule.deauthWorker]
  exact deauthLoop_all_cancelled env heap _ mod h

/-- What `startDeauth` leaves behind when it activates the handle itself and
some pair qualifies: no error, a started worker holding the resolved flows, the
in-flight counter raised by one, and the handle already closed again. -/
theorem startDeauth_on_demand (env : Env) (heap : Heap) (registry : List AccessPoint)
    (mod : WiFiModule) (target : HardwareAddr) (s : String) (macs : List HardwareAddr)
    (hS : env.StringParam "wifi.deauth.skip" = Except.ok s)
    (hP : env.ParseMACs s = Except.ok macs)
    (hR : env.Running mod.polls = false) (hC : env.Configure = Except.ok ())
    (hq : ∃ ap ∈ registry, ∃ client ∈ ap.Clients, qualifies macs heap target ap client) :
    (mod.startDeauth env heap registry target).err = none ∧
      (mod.startDeauth env heap registry target).worker =
        some (resolveFlows { mod with deauthSkip := macs } heap registry target) ∧
      resolveFlows { mod with deauthSkip := macs } heap registry target ≠ [] ∧
      (mod.startDeauth env heap registry target).mod.trace =
        mod.trace ++ [Event.activate, Event.release] ∧
      (mod.startDeauth env heap registry target).mod.handleOpen = false ∧
      (mod.startDeauth env heap registry target).mod.writes = mod.writes + 1 ∧
      (mod.startDeauth env heap registry target).mod.polls = mod.polls + 1 := by
  obtain ⟨ap, hap, client, hc, hql⟩ := hq
  have he : resolveFlows
      { mod with deauthSkip := macs, polls := mod.polls + 1, handleOpen := true,
                 trace := mod.trace ++ [Event.activate] } heap registry target ≠ [] :=
    fun h => (resolveFlows_eq_nil_iff _ heap registry target).1 h ap hap client hc hql
  have hcg : resolveFlows
      { mod with deauthSkip := macs, polls := mod.polls + 1, handleOpen := true,
                 trace := mod.trace ++ [Event.activate] } heap registry target =
      resolveFlows { mod with deauthSkip := macs } heap registry target :=
    resolveFlows_congr _ _ (by rfl) heap registry target
  rw [startDeauth_parsed env heap registry mod target s macs hS hP]
  simp only [hR, Bool.false_eq_true, if_false, hC, startDeauthResolve_eq, he,
    WiFiModule.handleClose]
  have he2 : resolveFlows { mod with deauthSkip := macs } heap registry target ≠ [] := by
    rw [← hcg]
    exact he
  refine ⟨?_, ?_, he2, ?_, ?_, ?_, ?_⟩ <;> simp [hcg]

/-- C20: when the running flag reads false at every poll and `startDeauth`
activates the handle itself, a call for which some pair qualifies returns no
error and starts a worker on the non-empty resolved flow list, yet that worker
injects no frame and switches no channel: after it the radio has seen only the
activation and the release. -/
theorem startDeauth_not_running_sends_nothing (env : Env) (heap : Heap)
    (registry : List AccessPoint) (mod : WiFiModule) (target : HardwareAddr) (s : String)
    (macs : List HardwareAddr)
    (hS : env.StringParam "wifi.deauth.skip" = Except.ok s)
    (hP : env.ParseMACs s = Except.ok macs)
    (hrun : ∀ k, env.Running k = false) (hC : env.Configure = Except.ok ())
    (hq : ∃ ap ∈ registry, ∃ client ∈ ap.Clients, qualifies macs heap target ap client) :
    (mod.startDeauth env heap registry target).err = none ∧
      ∃ toDeauth, toDeauth ≠ [] ∧
        (mod.startDeauth env heap registry target).worker = some toDeauth ∧
        ((mod.startDeauth env heap registry target).mod.deauthWorker env heap toDeauth).trace =
          mod.trace ++ [Event.activate, Event.release] ∧
        injected ((mod.startDeauth env heap registry target).mod.deauthWorker env heap
          toDeauth).trace = injected mod.trace := by
  obtain ⟨h1, h2, h3, h4, _, _, _⟩ :=
    startDeauth_on_demand env heap registry mod target s macs hS hP (hrun _) hC hq
  have hw := deauthWorker_all_cancelled env heap (mod.startDeauth env heap registry target).mod
    (resolveFlows { mod with deauthSkip := macs } heap registry target) (fun k _ => hrun k)
  refine ⟨h1, _, h3, h2, hw.trans h4, ?_⟩
  rw [hw, h4, injected_append]
  simp [injected]

/-- C20, at a concrete input: the two flows of `heapA`, a module that is not
running. -/
theorem startDeauth_not_running_sends_nothing_witness :
    (mod0.startDeauth envStopped heapA [apA] BroadcastHw).err = none ∧
      (mod0.startDeauth envStopped heapA [apA] BroadcastHw).worker = some [flowA1, flowA2] ∧
      ((mod0.startDeauth envStopped heapA [apA] BroadcastHw).mod.deauthWorker envStopped heapA
        [flowA1, flowA2]).trace = [Event.activate, Event.release] :=
  have h := startDeauth_not_running_sends_nothing envStopped heapA [apA] mod0 BroadcastHw "" []
    rfl rfl (fun _ => rfl) rfl (by decide)
  have hw : (mod0.startDeauth envStopped heapA [apA] BroadcastHw).worker
      = some [flowA1, flowA2] := by decide
  ⟨h.1, hw, by decide⟩

/-- C11 fails on the code: a call of `startDeauth` on a module that is not
running activates the handle, starts a worker for the two flows of `heapA` and
returns with the in-flight counter at 1 and the handle already released, before
the worker has processed a flow; the module being started in between, the
worker then switches channel and injects its frames after the release. -/
theorem startDeauth_releases_before_worker :
    envRestart.Running 0 = false ∧
      (({ mod0 with deauthPackets := 1 }).startDeauth envRestart heapA [apA] BroadcastHw).err
        = none ∧
      (({ mod0 with deauthPackets := 1 }).startDeauth envRestart heapA [apA] BroadcastHw).worker
        = some [flowA1, flowA2] ∧
      (({ mod0 with deauthPackets := 1 }).startDeauth envRestart heapA [apA]
        BroadcastHw).mod.writes = 1 ∧
      (({ mod0 with deauthPackets := 1 }).startDeauth envRestart heapA [apA]
        BroadcastHw).mod.handleOpen = false ∧
      (({ mod0 with deauthPackets := 1 }).startDeauth envRestart heapA [apA]
        BroadcastHw).mod.trace = [Event.activate, Event.release] ∧
      ((({ mod0 with deauthPackets := 1 }).startDeauth envRestart heapA [apA]
        BroadcastHw).mod.deauthWorker envRestart heapA [flowA1, flowA2]).trace =
        [Event.activate, Event.release,
          Event.hop 6,
          Event.inject [2, 0, 0, 0, 0, 1, 2, 0, 0, 0, 0, 2, 2, 0, 0, 0, 0, 1, 0],
          Event.inject [2, 0, 0, 0, 0, 2, 2, 0, 0, 0, 0, 1, 2, 0, 0, 0, 0, 1, 0],
          Event.hop 6,
          Event.inject [2, 0, 0, 0, 0, 1, 2, 0, 0, 0, 0, 3, 2, 0, 0, 0, 0, 1, 0],
          Event.inject [2, 0, 0, 0, 0, 3, 2, 0, 0, 0, 0, 1, 2, 0, 0, 0, 0, 1, 0]] ∧
      ((({ mod0 with deauthPackets := 1 }).startDeauth envRestart heapA [apA]
        BroadcastHw).mod.deauthWorker envRestart heapA [flowA1, flowA2]).writes = 0 := by
  refine ⟨rfl, ?_, ?_, ?_, ?_, ?_, ?_, ?_⟩ <;> decide

end Bettercap
